import Mathlib

/-!
Shallow embedding of the Swiss-tournament pairing-and-scoring engine of this
repository (an Express + Postgres application).  The embedded code is the
engine used by the main API router:

* `PUT /pairings/:id`            — result entry / correction (the result
  ledger: reverse the old deltas, apply the new ones, store the result);
* `POST /tournaments/:tid/pairings/generate` — round generation (canonical
  sort, bye selection, greedy no-rematch pairing with fallback);
* `GET /tournaments/:tid/export` — standings with Buchholz tiebreak.

The database tables become Lean lists; every SQL `UPDATE ... WHERE id = $n`
becomes a `List.map` that touches exactly the matching rows (an `id = NULL`
match touches no row, as in SQL).  `numeric` points are `Rat` (they are
always multiples of 1/2).  JavaScript's stable `Array.prototype.sort` is
embedded as a stable insertion sort, and `localeCompare` as the order on
`String` (code-point lexicographic, which agrees with it on the ASCII names
used in the examples).
-/

/-- A row of the `players` table for one tournament.  The columns the engine
never reads (`tournament_id`, `grade`, `school`) are omitted. -/
structure Player where
  id : Nat
  name : String
  points : Rat
  hadBye : Bool
deriving Repr, DecidableEq

/-- A row of the `pairings` table: `black_id` is NULL for a bye, `result`
is NULL until a result is recorded (free-form text otherwise). -/
structure Pairing where
  id : Nat
  roundNumber : Nat
  whiteId : Nat
  blackId : Option Nat
  result : Option String
deriving Repr, DecidableEq

/-- The tournament's state: its `players` and `pairings` tables. -/
structure Db where
  players : List Player
  pairings : List Pairing
deriving Repr, DecidableEq

/-- The three permitted result strings, from the `PUT /pairings/:id`
validation list `['1-0', '0-1', '0.5-0.5']`. -/
def validResults : List String := ["1-0", "0-1", "0.5-0.5"]

/-- White's point delta for a result string (the `whitePoints` local of the
PUT route: 1 for '1-0', 0.5 for '0.5-0.5', otherwise the initial 0). -/
def whiteDelta (r : String) : Rat :=
  if r = "1-0" then 1 else if r = "0-1" then 0 else if r = "0.5-0.5" then 1/2 else 0

/-- Black's point delta for a result string (the `blackPoints` local of the
PUT route). -/
def blackDelta (r : String) : Rat :=
  if r = "1-0" then 0 else if r = "0-1" then 1 else if r = "0.5-0.5" then 1/2 else 0

/-- `UPDATE players SET points = points + $1 WHERE id = $2` where `$2` may be
NULL (`target = none` matches no row). -/
def addPoints (ps : List Player) (target : Option Nat) (d : Rat) : List Player :=
  ps.map fun p => if some p.id = target then { p with points := p.points + d } else p

/-- `UPDATE players SET points = points - $1 WHERE id = $2` where `$2` may be
NULL. -/
def subPoints (ps : List Player) (target : Option Nat) (d : Rat) : List Player :=
  ps.map fun p => if some p.id = target then { p with points := p.points - d } else p

/-- Applying a result's point deltas: the white row's UPDATE runs first, then
the black row's (`black_id` may be NULL). -/
def applyResult (ps : List Player) (pr : Pairing) (r : String) : List Player :=
  addPoints (addPoints ps (some pr.whiteId) (whiteDelta r)) pr.blackId (blackDelta r)

/-- Reversing a stored result's point deltas (the "Revertir puntos antiguos"
block of the PUT route). -/
def reverseResult (ps : List Player) (pr : Pairing) (r : String) : List Player :=
  subPoints (subPoints ps (some pr.whiteId) (whiteDelta r)) pr.blackId (blackDelta r)

/-- `SELECT * FROM pairings WHERE id = $1`, first row. -/
def findPairing (db : Db) (pid : Nat) : Option Pairing :=
  db.pairings.find? fun q => decide (q.id = pid)

/-- The business-rule failures of the PUT route: the 400 for an invalid
result string, and the thrown "Emparejamiento no encontrado". -/
inductive UpdateError where
  | invalidResult
  | pairingNotFound
deriving Repr, DecidableEq

/-- `PUT /pairings/:id` — validate the result string, look the pairing up,
reverse the old result's deltas if a result was stored, apply the new
deltas, store the new result.  An error rolls the transaction back. -/
def setResult (db : Db) (pid : Nat) (r : String) : Except UpdateError Db :=
  if r ∈ validResults then
    match findPairing db pid with
    | none => .error .pairingNotFound
    | some pairing =>
      let ps :=
        match pairing.result with
        | some old => reverseResult db.players pairing old
        | none => db.players
      let ps := applyResult ps pairing r
      .ok { players := ps
            pairings := db.pairings.map fun q =>
              if q.id = pid then { q with result := some r } else q }
  else .error .invalidResult

/-- The observable state after a `PUT /pairings/:id` call: on an error the
transaction is rolled back, so the state is unchanged. -/
def setResultState (db : Db) (pid : Nat) (r : String) : Db :=
  match setResult db pid r with
  | .ok db' => db'
  | .error _ => db

theorem addPoints_none (ps : List Player) (d : Rat) : addPoints ps none d = ps := by
  simp [addPoints]

theorem subPoints_none (ps : List Player) (d : Rat) : subPoints ps none d = ps := by
  simp [subPoints]

theorem subPoints_eq_addPoints_neg (ps : List Player) (t : Option Nat) (d : Rat) :
    subPoints ps t d = addPoints ps t (-d) := by
  simp only [subPoints, addPoints, sub_eq_add_neg]

theorem addPoints_addPoints_comm (ps : List Player) (t₁ t₂ : Option Nat) (d₁ d₂ : Rat) :
    addPoints (addPoints ps t₁ d₁) t₂ d₂ = addPoints (addPoints ps t₂ d₂) t₁ d₁ := by
  simp only [addPoints, List.map_map]
  apply List.map_congr_left
  intro p _
  by_cases h₁ : some p.id = t₁
  · subst h₁
    by_cases h₂ : some p.id = t₂
    · subst h₂
      simp [add_right_comm]
    · simp [h₂]
  · by_cases h₂ : some p.id = t₂
    · subst h₂
      simp [h₁]
    · simp [h₁, h₂]

theorem addPoints_addPoints_same (ps : List Player) (t : Option Nat) (d₁ d₂ : Rat) :
    addPoints (addPoints ps t d₁) t d₂ = addPoints ps t (d₁ + d₂) := by
  simp only [addPoints, List.map_map]
  apply List.map_congr_left
  intro p _
  by_cases h : some p.id = t
  · subst h
    simp [add_assoc]
  · simp [h]

theorem addPoints_zero (ps : List Player) (t : Option Nat) : addPoints ps t 0 = ps := by
  simp [addPoints]

/-- **C2.** For every pairing `p` and every result `r` among the three
permitted values (a bye being a `'1-0'` with no black player),
`reverseResult p r` followed by `applyResult p r` leaves every player's
points — in fact the whole `players` table — exactly as before. -/
theorem reverse_then_apply_restores (ps : List Player) (pr : Pairing) (r : String)
    (hr : r ∈ validResults) :
    applyResult (reverseResult ps pr r) pr r = ps := by
  clear hr
  simp only [applyResult, reverseResult, subPoints_eq_addPoints_neg]
  rw [addPoints_addPoints_comm (addPoints ps (some pr.whiteId) (-whiteDelta r))
      pr.blackId (some pr.whiteId)]
  rw [addPoints_addPoints_same ps (some pr.whiteId) (-whiteDelta r) (whiteDelta r),
    neg_add_cancel, addPoints_zero]
  rw [addPoints_addPoints_same ps pr.blackId (-blackDelta r) (blackDelta r),
    neg_add_cancel, addPoints_zero]

/-- Witness for `reverse_then_apply_restores` at a concrete ledger. -/
theorem reverse_then_apply_restores_witness :
    "0.5-0.5" ∈ validResults ∧
      applyResult
        (reverseResult [⟨1, "A", 3, false⟩, ⟨2, "B", 1, false⟩]
          ⟨7, 1, 1, some 2, some "0.5-0.5"⟩ "0.5-0.5")
        ⟨7, 1, 1, some 2, some "0.5-0.5"⟩ "0.5-0.5" =
        [⟨1, "A", 3, false⟩, ⟨2, "B", 1, false⟩] :=
  ⟨by simp [validResults],
   reverse_then_apply_restores _ _ _ (by simp [validResults])⟩

theorem find?_map_of_id_eq (f : Pairing → Pairing) (hf : ∀ q, (f q).id = q.id)
    (l : List Pairing) (pid : Nat) :
    (l.map f).find? (fun q => decide (q.id = pid)) =
      (l.find? (fun q => decide (q.id = pid))).map f := by
  rw [List.find?_map]
  have hpred : ((fun q => decide (q.id = pid)) ∘ f) = (fun q : Pairing => decide (q.id = pid)) := by
    funext q
    simp [hf]
  rw [hpred]

theorem findPairing_setResult_ok (db db' : Db) (pid : Nat) (r : String) (pr : Pairing)
    (hfind : findPairing db pid = some pr) (hok : setResult db pid r = .ok db')
    (pid' : Nat) :
    findPairing db' pid' =
      (findPairing db pid').map fun q => if q.id = pid then { q with result := some r } else q := by
  by_cases hv : r ∈ validResults
  · simp only [setResult, if_pos hv, hfind] at hok
    cases hok
    simpa [findPairing] using
      find?_map_of_id_eq (fun q => if q.id = pid then { q with result := some r } else q)
        (fun q => by by_cases h : q.id = pid <;> simp [h]) db.pairings pid'
  · simp [setResult, if_neg hv] at hok

theorem findPairing_id {db : Db} {pid : Nat} {pr : Pairing}
    (hfind : findPairing db pid = some pr) : pr.id = pid := by
  have := List.find?_some hfind
  simpa using this

/-- **C1.** On a pairing with both players present whose result is unset,
recording result `a` and then correcting it to `b` leaves every player's
points (the whole `players` table) exactly as a single call recording `b`
would, for any starting points: prior deltas are never double-counted. -/
theorem setResult_twice_eq_setResult_once (db : Db) (pid : Nat) (a b : String)
    (pr : Pairing) (ha : a ∈ validResults) (hb : b ∈ validResults)
    (hfind : findPairing db pid = some pr) (hblack : pr.blackId.isSome)
    (hunset : pr.result = none) :
    (setResultState (setResultState db pid a) pid b).players =
      (setResultState db pid b).players := by
  clear hblack
  have hid : pr.id = pid := findPairing_id hfind
  have h1 : setResult db pid a =
      .ok { players := applyResult db.players pr a
            pairings := db.pairings.map fun q =>
              if q.id = pid then { q with result := some a } else q } := by
    simp [setResult, if_pos ha, hfind, hunset]
  have hply : (setResultState db pid a).players = applyResult db.players pr a := by
    simp [setResultState, h1]
  have hfind1 : findPairing (setResultState db pid a) pid = some { pr with result := some a } := by
    have := findPairing_setResult_ok db (setResultState db pid a) pid a pr hfind
      (by simp [setResultState, h1]) pid
    rw [this, hfind]
    simp [hid]
  have h2 : setResult (setResultState db pid a) pid b =
      .ok { players := applyResult (reverseResult (applyResult db.players pr a)
              { pr with result := some a } a) { pr with result := some a } b
            pairings := (setResultState db pid a).pairings.map fun q =>
              if q.id = pid then { q with result := some b } else q } := by
    simp [setResult, if_pos hb, hfind1, hply]
  have h3 : setResult db pid b =
      .ok { players := applyResult db.players pr b
            pairings := db.pairings.map fun q =>
              if q.id = pid then { q with result := some b } else q } := by
    simp [setResult, if_pos hb, hfind, hunset]
  have e2 : (setResultState (setResultState db pid a) pid b).players =
      applyResult (reverseResult (applyResult db.players pr a)
        { pr with result := some a } a) { pr with result := some a } b := by
    rw [setResultState, h2]
  have e3 : (setResultState db pid b).players = applyResult db.players pr b := by
    rw [setResultState, h3]
  rw [e2, e3]
  simp only [applyResult, reverseResult, subPoints_eq_addPoints_neg]
  congr 1
  rw [addPoints_addPoints_comm (addPoints db.players (some pr.whiteId) (whiteDelta a))
    pr.blackId (some pr.whiteId) (blackDelta a) (-whiteDelta a)]
  rw [addPoints_addPoints_same db.players (some pr.whiteId) (whiteDelta a) (-whiteDelta a),
    add_neg_cancel, addPoints_zero]
  rw [addPoints_addPoints_same db.players pr.blackId (blackDelta a) (-blackDelta a),
    add_neg_cancel, addPoints_zero]

/-- Witness for `setResult_twice_eq_setResult_once` on a two-player pairing. -/
theorem setResult_twice_eq_setResult_once_witness :
    "1-0" ∈ validResults ∧ "0-1" ∈ validResults ∧
      findPairing ⟨[⟨1, "A", 0, false⟩, ⟨2, "B", 0, false⟩], [⟨7, 1, 1, some 2, none⟩]⟩ 7 =
        some ⟨7, 1, 1, some 2, none⟩ ∧
      (setResultState (setResultState
          ⟨[⟨1, "A", 0, false⟩, ⟨2, "B", 0, false⟩], [⟨7, 1, 1, some 2, none⟩]⟩ 7 "1-0")
          7 "0-1").players =
        (setResultState
          ⟨[⟨1, "A", 0, false⟩, ⟨2, "B", 0, false⟩], [⟨7, 1, 1, some 2, none⟩]⟩ 7 "0-1").players :=
  ⟨by simp [validResults], by simp [validResults], by simp [findPairing],
   setResult_twice_eq_setResult_once _ 7 "1-0" "0-1" ⟨7, 1, 1, some 2, none⟩
     (by simp [validResults]) (by simp [validResults]) (by simp [findPairing]) rfl rfl⟩

/-- **C7.** Any result value outside the three permitted strings is rejected
with `invalidResult` before any database access: the observable state after
the call — every player's points and every pairing's result — is the
unchanged `db`. -/
theorem setResult_invalid_rejected (db : Db) (pid : Nat) (r : String)
    (hr : r ∉ validResults) :
    setResult db pid r = .error .invalidResult ∧ setResultState db pid r = db := by
  refine ⟨by simp [setResult, hr], ?_⟩
  simp [setResultState, setResult, hr]

/-- Witness for `setResult_invalid_rejected` at the string "2-0". -/
theorem setResult_invalid_rejected_witness :
    "2-0" ∉ validResults ∧
      (setResult ⟨[⟨1, "A", 0, false⟩], [⟨7, 1, 1, none, some "1-0"⟩]⟩ 7 "2-0" =
          .error .invalidResult ∧
        setResultState ⟨[⟨1, "A", 0, false⟩], [⟨7, 1, 1, none, some "1-0"⟩]⟩ 7 "2-0" =
          ⟨[⟨1, "A", 0, false⟩], [⟨7, 1, 1, none, some "1-0"⟩]⟩) :=
  ⟨by simp [validResults],
   setResult_invalid_rejected _ 7 "2-0" (by simp [validResults])⟩

/-- **C6, counterexample.** The PUT route has no bye guard at all: on the bye
pairing 10 (no black player, stored result '1-0') a `setResult` with '0-1'
is *accepted* — it strips the bye point from the white player (the '0-1'
delta targets the absent black row, i.e. no row) and overwrites the stored
result — contradicting the claim that it is rejected with
`ImmutableByeResult` and that nothing changes. -/
theorem setResult_bye_not_rejected_cex :
    setResult ⟨[⟨1, "P1", 1, true⟩], [⟨10, 1, 1, none, some "1-0"⟩]⟩ 10 "0-1" =
      .ok ⟨[⟨1, "P1", 0, true⟩], [⟨10, 1, 1, none, some "0-1"⟩]⟩ := by
  simp [setResult, findPairing, validResults, applyResult, reverseResult,
    addPoints, subPoints, whiteDelta, blackDelta]

/-- **C6, amended.** On a bye pairing (black player absent, stored result
'1-0') a `setResult` with any valid value `r` is accepted: the stored `'1-0'`
is reversed from the white player and `r`'s white delta applied (the black
updates match no row), so white's points change by `whiteDelta r - 1`, and
the stored result becomes `r`. -/
theorem setResult_bye_accepted (db : Db) (pid : Nat) (r : String) (pr : Pairing)
    (hr : r ∈ validResults) (hfind : findPairing db pid = some pr)
    (hbye : pr.blackId = none) (hres : pr.result = some "1-0") :
    setResult db pid r =
      .ok { players := addPoints db.players (some pr.whiteId) (whiteDelta r - 1)
            pairings := db.pairings.map fun q =>
              if q.id = pid then { q with result := some r } else q } := by
  simp only [setResult, if_pos hr, hfind, hres]
  have : applyResult (reverseResult db.players pr "1-0") pr r =
      addPoints db.players (some pr.whiteId) (whiteDelta r - 1) := by
    simp only [applyResult, reverseResult, subPoints_eq_addPoints_neg, hbye,
      addPoints_none]
    have h10 : whiteDelta "1-0" = 1 := by simp [whiteDelta]
    rw [h10, addPoints_addPoints_same db.players (some pr.whiteId) (-1) (whiteDelta r)]
    rw [neg_add_eq_sub]
  rw [this]

/-- Witness for `setResult_bye_accepted`: the concrete bye pairing of the
counterexample, via the theorem. -/
theorem setResult_bye_accepted_witness :
    "0-1" ∈ validResults ∧
      setResult ⟨[⟨1, "P1", 1, true⟩], [⟨10, 1, 1, none, some "1-0"⟩]⟩ 10 "0-1" =
        .ok { players := addPoints [⟨1, "P1", 1, true⟩] (some 1) (whiteDelta "0-1" - 1)
              pairings := [⟨10, 1, 1, none, some "0-1"⟩] } :=
  ⟨by simp [validResults],
   by
    have h := setResult_bye_accepted
      ⟨[⟨1, "P1", 1, true⟩], [⟨10, 1, 1, none, some "1-0"⟩]⟩ 10 "0-1"
      ⟨10, 1, 1, none, some "1-0"⟩ (by simp [validResults]) (by simp [findPairing]) rfl rfl
    simpa using h⟩

/-- A JavaScript stable sort (`Array.prototype.sort` with a comparator):
insert `x` before the first element that need not precede it strictly, so
that elements comparing equal keep their original relative order. -/
def jsInsert {α : Type} (lt : α → α → Bool) (x : α) : List α → List α
  | [] => [x]
  | b :: bs => if lt b x then b :: jsInsert lt x bs else x :: b :: bs

/-- Stable comparator sort: `lt a b` means the comparator returns a negative
number on `(a, b)`, i.e. `a` must come strictly before `b`. -/
def jsSort {α : Type} (lt : α → α → Bool) : List α → List α
  | [] => []
  | x :: xs => jsInsert lt x (jsSort lt xs)

/-- The canonical Swiss sort comparator
`(a, b) => b.points - a.points || a.name.localeCompare(b.name)`:
points descending, names ascending. -/
def canonLt (a b : Player) : Bool :=
  decide (b.points < a.points) || (decide (a.points = b.points) && decide (a.name < b.name))

/-- The bye-selection comparator `(a, b) => a.points - b.points`:
points ascending (ties keep the order of the sorted input — stable sort). -/
def byeLt (a b : Player) : Bool :=
  decide (a.points < b.points)

/-- `UPDATE players SET points = points + 1, had_bye = TRUE WHERE id = $1`. -/
def awardBye (ps : List Player) (pid : Nat) : List Player :=
  ps.map fun p => if p.id = pid then { p with points := p.points + 1, hadBye := true } else p

/-- A new pairing row before insertion (no id / round yet): the object pushed
onto `newPairings`. -/
structure NewPairing where
  whiteId : Nat
  blackId : Option Nat
  result : Option String
deriving Repr, DecidableEq

/-- The bye row `{ white_id, black_id: null, result: '1-0' }`. -/
def byeRec (pid : Nat) : NewPairing := ⟨pid, none, some "1-0"⟩

/-- `allPairings.some(p => (p.white_id === id1 && p.black_id === id2) || ...)`:
have the two players already met, in either color?  (A NULL `black_id`
equals no id.) -/
def havePlayed (hist : List Pairing) (id1 id2 : Nat) : Bool :=
  hist.any fun p =>
    decide ((p.whiteId = id1 ∧ p.blackId = some id2) ∨ (p.whiteId = id2 ∧ p.blackId = some id1))

/-- The inner scan for `player1`'s opponent: first unpaired other player the
two have not met, and otherwise (`if (!opponent)`) the first unpaired other
player regardless of history. -/
def findOpponent (hist : List Pairing) (fullPool : List Player) (paired : List Nat)
    (p1 : Player) : Option Player :=
  match fullPool.find? fun p2 =>
      decide (p1.id ≠ p2.id) && decide (p2.id ∉ paired) && !havePlayed hist p1.id p2.id with
  | some p2 => some p2
  | none => fullPool.find? fun p2 => decide (p2.id ≠ p1.id) && decide (p2.id ∉ paired)

/-- The pairing loop `for (const player1 of availablePlayers) ...`: walk the
pool in order; skip already-paired players; pair each remaining player with
`findOpponent`'s choice, marking both ids as paired. -/
def pairLoop (hist : List Pairing) (fullPool : List Player) :
    List Player → List Nat → List NewPairing × List Nat
  | [], paired => ([], paired)
  | p1 :: rest, paired =>
    if p1.id ∈ paired then pairLoop hist fullPool rest paired
    else
      match findOpponent hist fullPool paired p1 with
      | some p2 =>
        let r := pairLoop hist fullPool rest (p1.id :: p2.id :: paired)
        (⟨p1.id, some p2.id, none⟩ :: r.1, r.2)
      | none => pairLoop hist fullPool rest paired

/-- The outcome of the bye block: the `players` table after a possible
`awardBye`, the pushed bye row (if any), and `availablePlayers` as the
pairing loop will see it. -/
structure ByeOutcome where
  players : List Player
  byeRecs : List NewPairing
  pool : List Player
deriving Repr, DecidableEq

/-- The canonical sort plus the bye block of the generate route.  With an odd
pool the bye goes to `availablePlayers.filter(p => !p.had_bye).sort(points
asc)[0]`; if that is undefined, to `availablePlayers.sort(points asc)[0]` —
note this fallback `sort` mutates `availablePlayers` in place, so the pool
keeps the re-sorted order.  The chosen player gets `points + 1`,
`had_bye = TRUE`, a bye row, and is removed from the pool. -/
def poolAndBye (table : List Player) : ByeOutcome :=
  let sorted := jsSort canonLt table
  if sorted.length % 2 ≠ 0 then
    match (jsSort byeLt (sorted.filter fun p => !p.hadBye)).head? with
    | some ptb =>
      ⟨awardBye table ptb.id, [byeRec ptb.id], sorted.filter fun p => decide (p.id ≠ ptb.id)⟩
    | none =>
      match jsSort byeLt sorted with
      | [] => ⟨table, [], sorted⟩
      | ptb :: rest =>
        ⟨awardBye table ptb.id, [byeRec ptb.id],
          (ptb :: rest).filter fun p => decide (p.id ≠ ptb.id)⟩
  else ⟨table, [], sorted⟩

/-- `allPairings.length > 0 ? Math.max(...round_number) + 1 : 1`. -/
def nextRoundNumber (hist : List Pairing) : Nat :=
  if hist.length > 0 then (hist.map Pairing.roundNumber).foldr Nat.max 0 + 1 else 1

/-- Model of the `SERIAL` primary key for newly inserted pairing rows. -/
def nextPairingId (hist : List Pairing) : Nat :=
  (hist.map Pairing.id).foldr Nat.max 0 + 1

/-- `INSERT INTO pairings ... VALUES ($1, roundNumber, white, black, result)`
for each pushed row, in push order, with serial ids. -/
def insertRecs (round : Nat) : Nat → List NewPairing → List Pairing
  | _, [] => []
  | nextId, r :: rs => ⟨nextId, round, r.whiteId, r.blackId, r.result⟩ :: insertRecs round (nextId + 1) rs

/-- `POST /tournaments/:tournamentId/pairings/generate`: reject fewer than 2
players, sort, run the bye block, run the pairing loop over the remaining
pool against the full pairing history, and insert the bye row followed by
the game rows for the next round number. -/
def generateNextRound (db : Db) : Except String Db :=
  if db.players.length < 2 then .error "Se necesitan al menos 2 jugadores."
  else
    let o := poolAndBye db.players
    let games := (pairLoop db.pairings o.pool o.pool []).1
    .ok { players := o.players
          pairings := db.pairings ++
            insertRecs (nextRoundNumber db.pairings) (nextPairingId db.pairings)
              (o.byeRecs ++ games) }

/-- One row of the exported standings (the fields the engine computes;
`Puntos` keeps its numeric value — `toFixed(1)` is exact on multiples of
1/2 and the CSV sort compares the numeric values). -/
structure Standing where
  Nombre : String
  Puntos : Rat
  Buchholz : Rat
  Partidas : Nat
deriving Repr, DecidableEq

/-- The ids a player has faced: pairings containing the player, mapped to the
other side, then `.filter(Boolean)` — dropping a NULL (bye) and a 0 id. -/
def opponentIds (pairings : List Pairing) (player : Player) : List Nat :=
  ((pairings.filter fun p =>
      decide (p.whiteId = player.id) || decide (p.blackId = some player.id)).map
    fun p => if p.whiteId = player.id then p.blackId else some p.whiteId).filterMap
    fun o => match o with
      | none => none
      | some i => if i = 0 then none else some i

/-- `const opponent = players.find(p => p.id === oppId)`, contributing
`opponent ? parseFloat(opponent.points) : 0`. -/
def lookupPoints (players : List Player) (oppId : Nat) : Rat :=
  match players.find? fun p => decide (p.id = oppId) with
  | some o => o.points
  | none => 0

/-- `opponentIds.reduce((sum, oppId) => sum + (opponent ? opponent.points : 0), 0)`. -/
def buchholzOf (players : List Player) (oppIds : List Nat) : Rat :=
  oppIds.foldl (fun sum oppId => sum + lookupPoints players oppId) 0

/-- The standings row computed for one player by the export route. -/
def standingOf (players : List Player) (pairings : List Pairing) (player : Player) : Standing :=
  let opp := opponentIds pairings player
  { Nombre := player.name
    Puntos := player.points
    Buchholz := buchholzOf players opp
    Partidas := opp.length }

/-- The export sort comparator
`(a, b) => b.Puntos - a.Puntos || b.Buchholz - a.Buchholz`. -/
def standLt (a b : Standing) : Bool :=
  decide (b.Puntos < a.Puntos) || (decide (a.Puntos = b.Puntos) && decide (b.Buchholz < a.Buchholz))

/-- `GET /tournaments/:tournamentId/export` — the rows of the standings CSV
in their exported order. -/
def computeStandings (players : List Player) (pairings : List Pairing) : List Standing :=
  jsSort standLt (players.map (standingOf players pairings))

/-- Modelled from the spec: the tiebreak as §4.5 words it — "for each player
sum the current points of every opponent they have faced (byes contribute no
opponent)", one summand per pairing the player appears in. -/
def specTiebreak (players : List Player) (pairings : List Pairing) (player : Player) : Rat :=
  ((pairings.filter fun p =>
      decide (p.whiteId = player.id) || decide (p.blackId = some player.id)).map
    fun p =>
      match (if p.whiteId = player.id then p.blackId else some p.whiteId) with
      | none => 0
      | some oppId => lookupPoints players oppId).sum

/-- Modelled from the spec: "gamesPlayed counts only pairings in which that
player faced a present opponent" — pairings where the player is white with a
present black, or is black (white is always present). -/
def specGamesPlayed (pairings : List Pairing) (player : Player) : Nat :=
  (pairings.filter fun p =>
    decide ((p.whiteId = player.id ∧ p.blackId ≠ none) ∨ p.blackId = some player.id)).length

theorem jsInsert_perm {α : Type} (lt : α → α → Bool) (x : α) (l : List α) :
    (jsInsert lt x l).Perm (x :: l) := by
  induction l with
  | nil => simp [jsInsert]
  | cons b bs ih =>
    simp only [jsInsert]
    by_cases h : lt b x = true
    · rw [if_pos h]
      exact (ih.cons b).trans (List.Perm.swap x b bs)
    · rw [if_neg h]

theorem jsSort_perm {α : Type} (lt : α → α → Bool) (l : List α) :
    (jsSort lt l).Perm l := by
  induction l with
  | nil => simp [jsSort]
  | cons x xs ih => exact (jsInsert_perm lt x (jsSort lt xs)).trans (ih.cons x)

theorem jsSort_length {α : Type} (lt : α → α → Bool) (l : List α) :
    (jsSort lt l).length = l.length :=
  (jsSort_perm lt l).length_eq

theorem jsSort_mem {α : Type} (lt : α → α → Bool) (l : List α) (y : α) :
    y ∈ jsSort lt l ↔ y ∈ l :=
  (jsSort_perm lt l).mem_iff

theorem jsInsert_pairwise {α : Type} (lt : α → α → Bool)
    (hasym : ∀ a b, lt a b = true → lt b a = false)
    (hneg : ∀ a b c, lt b a = false → lt c b = false → lt c a = false)
    (x : α) (l : List α) (hl : l.Pairwise fun a b => lt b a = false) :
    (jsInsert lt x l).Pairwise fun a b => lt b a = false := by
  induction l with
  | nil => simp [jsInsert]
  | cons b bs ih =>
    rcases List.pairwise_cons.mp hl with ⟨hb, hbs⟩
    simp only [jsInsert]
    by_cases h : lt b x = true
    · rw [if_pos h]
      refine List.pairwise_cons.mpr ⟨?_, ih hbs⟩
      intro y hy
      have hy' : y ∈ x :: bs := (jsInsert_perm lt x bs).subset hy
      rcases List.mem_cons.mp hy' with heq | hy''
      · rw [heq]
        exact hasym b x h
      · exact hb y hy''
    · rw [if_neg h]
      have hbx : lt b x = false := by
        cases hbx : lt b x
        · rfl
        · exact absurd hbx h
      refine List.pairwise_cons.mpr ⟨?_, hl⟩
      intro y hy
      rcases List.mem_cons.mp hy with heq | hy'
      · rw [heq]
        exact hbx
      · exact hneg x b y hbx (hb y hy')

theorem jsSort_pairwise {α : Type} (lt : α → α → Bool)
    (hasym : ∀ a b, lt a b = true → lt b a = false)
    (hneg : ∀ a b c, lt b a = false → lt c b = false → lt c a = false)
    (l : List α) :
    (jsSort lt l).Pairwise fun a b => lt b a = false := by
  induction l with
  | nil => simp [jsSort]
  | cons x xs ih => exact jsInsert_pairwise lt hasym hneg x (jsSort lt xs) ih

theorem jsSort_head_min {α : Type} (lt : α → α → Bool)
    (hasym : ∀ a b, lt a b = true → lt b a = false)
    (hneg : ∀ a b c, lt b a = false → lt c b = false → lt c a = false)
    (l : List α) (x : α) (rest : List α) (h : jsSort lt l = x :: rest) :
    ∀ y ∈ l, lt y x = false := by
  intro y hy
  have hy' : y ∈ x :: rest := h ▸ (jsSort_mem lt l y).mpr hy
  rcases List.mem_cons.mp hy' with heq | hy''
  · rw [heq]
    cases hxx : lt x x
    · rfl
    · exact absurd (hasym x x hxx) (by simp [hxx])
  · have hp := jsSort_pairwise lt hasym hneg l
    rw [h] at hp
    exact (List.pairwise_cons.mp hp).1 y hy''

theorem byeLt_asym (a b : Player) (h : byeLt a b = true) : byeLt b a = false := by
  simp only [byeLt, decide_eq_true_eq] at h
  simp [byeLt, le_of_lt h]

theorem byeLt_negtrans (a b c : Player)
    (h₁ : byeLt b a = false) (h₂ : byeLt c b = false) : byeLt c a = false := by
  simp only [byeLt, decide_eq_false_iff_not, not_lt] at h₁ h₂ ⊢
  exact h₁.trans h₂

/-- The bye block on an even roster does nothing: no bye row, no update,
pool = canonically sorted roster. -/
theorem poolAndBye_even (table : List Player) (h : table.length % 2 = 0) :
    poolAndBye table = ⟨table, [], jsSort canonLt table⟩ := by
  simp [poolAndBye, jsSort_length, h]

/-- The bye block on an odd roster: some roster member `ptb` gets the bye
(points + 1, `had_bye` set, one bye row), and the pool is a permutation `X`
of the roster with `ptb`'s id filtered out. -/
theorem poolAndBye_odd (table : List Player) (hodd : table.length % 2 = 1) :
    ∃ (ptb : Player) (X : List Player), ptb ∈ table ∧ X.Perm table ∧
      poolAndBye table = ⟨awardBye table ptb.id, [byeRec ptb.id],
        X.filter fun p => decide (p.id ≠ ptb.id)⟩ := by
  have hodd' : (jsSort canonLt table).length % 2 ≠ 0 := by
    rw [jsSort_length, hodd]
    decide
  cases hhead : (jsSort byeLt ((jsSort canonLt table).filter fun p => !p.hadBye)).head? with
  | some ptb =>
    refine ⟨ptb, jsSort canonLt table, ?_, jsSort_perm canonLt table, ?_⟩
    · have : ptb ∈ jsSort byeLt ((jsSort canonLt table).filter fun p => !p.hadBye) :=
        List.mem_of_mem_head? hhead
      have : ptb ∈ (jsSort canonLt table).filter fun p => !p.hadBye :=
        (jsSort_mem _ _ _).mp this
      exact (jsSort_mem _ _ _).mp (List.mem_of_mem_filter this)
    · simp [poolAndBye, jsSort_length, hodd, hhead]
  | none =>
    have hne : jsSort byeLt (jsSort canonLt table) ≠ [] := by
      intro hcon
      have := congrArg List.length hcon
      rw [jsSort_length, jsSort_length] at this
      rw [this] at hodd
      simp at hodd
    cases hsv : jsSort byeLt (jsSort canonLt table) with
    | nil => exact absurd hsv hne
    | cons ptb rest' =>
      refine ⟨ptb, ptb :: rest', ?_, ?_, ?_⟩
      · have : ptb ∈ jsSort byeLt (jsSort canonLt table) := by
          rw [hsv]; exact List.mem_cons_self ptb rest'
        exact (jsSort_mem _ _ _).mp ((jsSort_mem _ _ _).mp this)
      · rw [← hsv]
        exact (jsSort_perm byeLt _).trans (jsSort_perm canonLt table)
      · simp [poolAndBye, jsSort_length, hodd, hhead, hsv]

/-- The bye block on an odd roster with at least one player who has not yet
had a bye: the recipient has `hadBye = false` and minimal points among such
players. -/
theorem poolAndBye_odd_minNoBye (table : List Player) (hodd : table.length % 2 = 1)
    (hex : ∃ p ∈ table, p.hadBye = false) :
    ∃ ptb, ptb ∈ table ∧ ptb.hadBye = false ∧
      (∀ p ∈ table, p.hadBye = false → ptb.points ≤ p.points) ∧
      poolAndBye table = ⟨awardBye table ptb.id, [byeRec ptb.id],
        (jsSort canonLt table).filter fun p => decide (p.id ≠ ptb.id)⟩ := by
  have hodd' : (jsSort canonLt table).length % 2 ≠ 0 := by
    rw [jsSort_length, hodd]
    decide
  obtain ⟨p₀, hp₀, hb₀⟩ := hex
  have hp₀f : p₀ ∈ (jsSort canonLt table).filter fun p => !p.hadBye := by
    rw [List.mem_filter]
    exact ⟨(jsSort_mem _ _ _).mpr hp₀, by simp [hb₀]⟩
  have hne : jsSort byeLt ((jsSort canonLt table).filter fun p => !p.hadBye) ≠ [] := by
    intro hcon
    have : p₀ ∈ jsSort byeLt ((jsSort canonLt table).filter fun p => !p.hadBye) :=
      (jsSort_mem _ _ _).mpr hp₀f
    rw [hcon] at this
    exact absurd this (List.not_mem_nil p₀)
  cases hsv : jsSort byeLt ((jsSort canonLt table).filter fun p => !p.hadBye) with
  | nil => exact absurd hsv hne
  | cons ptb rest' =>
    have hptbmem : ptb ∈ (jsSort canonLt table).filter fun p => !p.hadBye := by
      have : ptb ∈ jsSort byeLt ((jsSort canonLt table).filter fun p => !p.hadBye) := by
        rw [hsv]; exact List.mem_cons_self ptb rest'
      exact (jsSort_mem _ _ _).mp this
    refine ⟨ptb, ?_, ?_, ?_, ?_⟩
    · exact (jsSort_mem _ _ _).mp (List.mem_of_mem_filter hptbmem)
    · have := (List.mem_filter.mp hptbmem).2
      simpa using this
    · intro p hp hb
      have hpf : p ∈ (jsSort canonLt table).filter fun q => !q.hadBye := by
        rw [List.mem_filter]
        exact ⟨(jsSort_mem _ _ _).mpr hp, by simp [hb]⟩
      have := jsSort_head_min byeLt byeLt_asym byeLt_negtrans _ ptb rest' hsv p hpf
      simp only [byeLt, decide_eq_false_iff_not, not_lt] at this
      exact this
    · simp [poolAndBye, jsSort_length, hodd, hsv]

theorem awardBye_length (ps : List Player) (b : Nat) :
    (awardBye ps b).length = ps.length := by
  simp [awardBye]

theorem awardBye_get (ps : List Player) (b : Nat) (i : Nat)
    (h : i < ps.length) (h' : i < (awardBye ps b).length) :
    (awardBye ps b).get ⟨i, h'⟩ =
      if (ps.get ⟨i, h⟩).id = b then
        { ps.get ⟨i, h⟩ with points := (ps.get ⟨i, h⟩).points + 1, hadBye := true }
      else ps.get ⟨i, h⟩ := by
  simp [awardBye]

/-- **C9.** When `generateNextRound` succeeds, the pre-existing pairing rows
(in particular their results) survive unchanged as a prefix of the new
table, and the `players` table changes in at most one row: a bye recipient
drawn from the roster, possible only when the roster size is odd.  Every
other row — its points, `had_bye`, name and id — is exactly the old row. -/
theorem generateNextRound_frame (db db' : Db)
    (hok : generateNextRound db = .ok db') :
    (∃ rest, db'.pairings = db.pairings ++ rest) ∧
      db'.players.length = db.players.length ∧
      ∃ t : Option Nat,
        (db.players.length % 2 = 0 → t = none) ∧
        (db.players.length % 2 = 1 → ∃ b, t = some b ∧ b ∈ db.players.map Player.id) ∧
        ∀ i (h₁ : i < db.players.length) (h₂ : i < db'.players.length),
          (some (db.players.get ⟨i, h₁⟩).id ≠ t →
            db'.players.get ⟨i, h₂⟩ = db.players.get ⟨i, h₁⟩) ∧
          (some (db.players.get ⟨i, h₁⟩).id = t →
            (db'.players.get ⟨i, h₂⟩).points = (db.players.get ⟨i, h₁⟩).points + 1 ∧
            (db'.players.get ⟨i, h₂⟩).hadBye = true ∧
            (db'.players.get ⟨i, h₂⟩).name = (db.players.get ⟨i, h₁⟩).name ∧
            (db'.players.get ⟨i, h₂⟩).id = (db.players.get ⟨i, h₁⟩).id) := by
  by_cases hlen : db.players.length < 2
  · rw [generateNextRound, if_pos hlen] at hok
    exact absurd hok (by simp)
  · rw [generateNextRound, if_neg hlen] at hok
    have hdb' : db' =
        { players := (poolAndBye db.players).players
          pairings := db.pairings ++
            insertRecs (nextRoundNumber db.pairings) (nextPairingId db.pairings)
              ((poolAndBye db.players).byeRecs ++
                (pairLoop db.pairings (poolAndBye db.players).pool
                  (poolAndBye db.players).pool []).1) } := by
      cases hok
      rfl
    rcases Nat.mod_two_eq_zero_or_one db.players.length with hpar | hpar
    · have hpb := poolAndBye_even db.players hpar
      subst hdb'
      refine ⟨⟨_, rfl⟩, ?_, none, fun _ => rfl, ?_, ?_⟩
      · rw [hpb]
      · intro hc
        rw [hpar] at hc
        exact absurd hc (by decide)
      · rw [hpb]
        intro i h₁ h₂
        exact ⟨fun _ => rfl, fun hc => absurd hc (by simp)⟩
    · obtain ⟨ptb, X, hmem, hperm, hpb⟩ := poolAndBye_odd db.players hpar
      subst hdb'
      refine ⟨⟨_, rfl⟩, ?_, some ptb.id, ?_, ?_, ?_⟩
      · rw [hpb]
        exact awardBye_length db.players ptb.id
      · intro hc
        rw [hpar] at hc
        exact absurd hc (by decide)
      · intro _
        exact ⟨ptb.id, rfl, List.mem_map_of_mem Player.id hmem⟩
      · rw [hpb]
        intro i h₁ h₂
        have h₂' : i < (awardBye db.players ptb.id).length := h₂
        have hsplit := awardBye_get db.players ptb.id i h₁ h₂'
        constructor
        · intro hne
          have hne' : ¬ (db.players.get ⟨i, h₁⟩).id = ptb.id := by
            intro hc
            exact hne (by rw [hc])
          show (awardBye db.players ptb.id).get ⟨i, h₂'⟩ = db.players.get ⟨i, h₁⟩
          rw [hsplit, if_neg hne']
        · intro heq
          have heq' : (db.players.get ⟨i, h₁⟩).id = ptb.id := by
            injection heq
          show ((awardBye db.players ptb.id).get ⟨i, h₂'⟩).points =
              (db.players.get ⟨i, h₁⟩).points + 1 ∧
            ((awardBye db.players ptb.id).get ⟨i, h₂'⟩).hadBye = true ∧
            ((awardBye db.players ptb.id).get ⟨i, h₂'⟩).name =
              (db.players.get ⟨i, h₁⟩).name ∧
            ((awardBye db.players ptb.id).get ⟨i, h₂'⟩).id = (db.players.get ⟨i, h₁⟩).id
          rw [hsplit, if_pos heq']
          exact ⟨rfl, rfl, rfl, rfl⟩

theorem pairLoop_games_shape (hist : List Pairing) (fullPool : List Player) :
    ∀ (pool : List Player) (paired : List Nat) (g : NewPairing),
      g ∈ (pairLoop hist fullPool pool paired).1 →
        (∃ b, g.blackId = some b) ∧ g.result = none := by
  intro pool
  induction pool with
  | nil =>
    intro paired g hg
    simp [pairLoop] at hg
  | cons p1 rest ih =>
    intro paired g hg
    rw [pairLoop] at hg
    by_cases hp : p1.id ∈ paired
    · rw [if_pos hp] at hg
      exact ih paired g hg
    · rw [if_neg hp] at hg
      cases hfo : findOpponent hist fullPool paired p1 with
      | some p2 =>
        rw [hfo] at hg
        rcases List.mem_cons.mp hg with heq | hg'
        · exact ⟨⟨p2.id, by rw [heq]⟩, by rw [heq]⟩
        · exact ih _ g hg'
      | none =>
        rw [hfo] at hg
        exact ih _ g hg

theorem insertRecs_filter_none_nil (round : Nat) :
    ∀ (n : Nat) (rs : List NewPairing), (∀ r ∈ rs, r.blackId ≠ none) →
      (insertRecs round n rs).filter (fun q => q.blackId.isNone) = [] := by
  intro n rs
  induction rs generalizing n with
  | nil =>
    intro _
    simp [insertRecs]
  | cons r rs ih =>
    intro hall
    rw [insertRecs]
    rw [List.filter_cons]
    have : (Pairing.blackId ⟨n, round, r.whiteId, r.blackId, r.result⟩).isNone = false := by
      have := hall r (List.mem_cons_self r rs)
      simp only [Option.isNone_eq_false_iff]
      exact Option.isSome_iff_ne_none.mpr this
    rw [this]
    simp only [Bool.false_eq_true, if_false]
    exact ih (n + 1) fun q hq => hall q (List.mem_cons_of_mem r hq)

/-- **C4, counterexample.** Five players P1..P5, all at 0 points, no history:
the code re-sorts the no-bye players by points ascending and takes index 0,
a *stable* sort, so among the all-tied players the alphabetically *first*
player P1 — not the lowest-ranked P5 — receives the bye and moves to 1
point, while P5 stays at 0.  The full run refutes the claimed example. -/
theorem bye_lowest_ranked_cex :
    generateNextRound ⟨[⟨1, "P1", 0, false⟩, ⟨2, "P2", 0, false⟩, ⟨3, "P3", 0, false⟩,
        ⟨4, "P4", 0, false⟩, ⟨5, "P5", 0, false⟩], []⟩ =
      .ok ⟨[⟨1, "P1", 1, true⟩, ⟨2, "P2", 0, false⟩, ⟨3, "P3", 0, false⟩,
          ⟨4, "P4", 0, false⟩, ⟨5, "P5", 0, false⟩],
        [⟨1, 1, 1, none, some "1-0"⟩, ⟨2, 1, 2, some 3, none⟩, ⟨3, 1, 4, some 5, none⟩]⟩ := by
  simp [generateNextRound, poolAndBye, jsSort, jsInsert, canonLt, byeLt, pairLoop,
    findOpponent, havePlayed, insertRecs, nextRoundNumber, nextPairingId, awardBye,
    byeRec, String.lt_iff_toList_lt]
  decide

/-- **C4, amended.** For every odd-size roster with at least one `hadBye =
false` player: the bye recipient is a `hadBye = false` player with *minimal
points* among the `hadBye = false` players — the stable points-ascending
resort makes ties fall to the player *earliest* in the canonical order
(alphabetically first), not the lowest-ranked — the recipient's row gets
`points + 1` and `had_bye = TRUE` (`awardBye`), and the generated round
contains exactly one bye row, naming the recipient as white.  (In the
5-player example it is P1, not P5, who receives the bye and moves to 1
point.) -/
theorem bye_recipient_min_points (db db' : Db)
    (hodd : db.players.length % 2 = 1)
    (hex : ∃ p ∈ db.players, p.hadBye = false)
    (hok : generateNextRound db = .ok db') :
    ∃ ptb : Player, ptb ∈ db.players ∧ ptb.hadBye = false ∧
      (∀ p ∈ db.players, p.hadBye = false → ptb.points ≤ p.points) ∧
      db'.players = awardBye db.players ptb.id ∧
      (db'.pairings.drop db.pairings.length).filter (fun q => q.blackId.isNone) =
        [⟨nextPairingId db.pairings, nextRoundNumber db.pairings, ptb.id, none, some "1-0"⟩] := by
  by_cases hlen : db.players.length < 2
  · rw [generateNextRound, if_pos hlen] at hok
    exact absurd hok (by simp)
  · rw [generateNextRound, if_neg hlen] at hok
    obtain ⟨ptb, hmem, hnb, hmin, hpb⟩ := poolAndBye_odd_minNoBye db.players hodd hex
    have hdb' : db' =
        { players := (poolAndBye db.players).players
          pairings := db.pairings ++
            insertRecs (nextRoundNumber db.pairings) (nextPairingId db.pairings)
              ((poolAndBye db.players).byeRecs ++
                (pairLoop db.pairings (poolAndBye db.players).pool
                  (poolAndBye db.players).pool []).1) } := by
      cases hok
      rfl
    refine ⟨ptb, hmem, hnb, hmin, ?_, ?_⟩
    · rw [hdb', hpb]
    · rw [hdb']
      show ((db.pairings ++
          insertRecs (nextRoundNumber db.pairings) (nextPairingId db.pairings)
            ((poolAndBye db.players).byeRecs ++
              (pairLoop db.pairings (poolAndBye db.players).pool
                (poolAndBye db.players).pool []).1)).drop db.pairings.length).filter
          (fun q => q.blackId.isNone) = _
      rw [List.drop_left, hpb]
      show (insertRecs (nextRoundNumber db.pairings) (nextPairingId db.pairings)
          (byeRec ptb.id ::
            (pairLoop db.pairings _ _ []).1)).filter (fun q => q.blackId.isNone) = _
      rw [insertRecs, List.filter_cons]
      have hkeep : (Pairing.blackId ⟨nextPairingId db.pairings, nextRoundNumber db.pairings,
          (byeRec ptb.id).whiteId, (byeRec ptb.id).blackId, (byeRec ptb.id).result⟩).isNone
          = true := by
        simp [byeRec]
      rw [hkeep]
      simp only [if_true]
      rw [insertRecs_filter_none_nil]
      · simp [byeRec]
      · intro r hr
        obtain ⟨⟨b, hb⟩, -⟩ := pairLoop_games_shape db.pairings _ _ [] r hr
        simp [hb]

/-- Witness for `bye_recipient_min_points` at the spec's own 5-player
example. -/
theorem bye_recipient_min_points_witness :
    (([⟨1, "P1", 0, false⟩, ⟨2, "P2", 0, false⟩, ⟨3, "P3", 0, false⟩,
        ⟨4, "P4", 0, false⟩, ⟨5, "P5", 0, false⟩] : List Player).length % 2 = 1) ∧
      (∃ p ∈ ([⟨1, "P1", 0, false⟩, ⟨2, "P2", 0, false⟩, ⟨3, "P3", 0, false⟩,
          ⟨4, "P4", 0, false⟩, ⟨5, "P5", 0, false⟩] : List Player), p.hadBye = false) ∧
      generateNextRound ⟨[⟨1, "P1", 0, false⟩, ⟨2, "P2", 0, false⟩, ⟨3, "P3", 0, false⟩,
          ⟨4, "P4", 0, false⟩, ⟨5, "P5", 0, false⟩], []⟩ =
        .ok ⟨[⟨1, "P1", 1, true⟩, ⟨2, "P2", 0, false⟩, ⟨3, "P3", 0, false⟩,
            ⟨4, "P4", 0, false⟩, ⟨5, "P5", 0, false⟩],
          [⟨1, 1, 1, none, some "1-0"⟩, ⟨2, 1, 2, some 3, none⟩, ⟨3, 1, 4, some 5, none⟩]⟩ ∧
      (∃ ptb : Player,
        ptb ∈ (⟨[⟨1, "P1", 0, false⟩, ⟨2, "P2", 0, false⟩, ⟨3, "P3", 0, false⟩,
            ⟨4, "P4", 0, false⟩, ⟨5, "P5", 0, false⟩], []⟩ : Db).players ∧
        ptb.hadBye = false ∧
        (∀ p ∈ (⟨[⟨1, "P1", 0, false⟩, ⟨2, "P2", 0, false⟩, ⟨3, "P3", 0, false⟩,
            ⟨4, "P4", 0, false⟩, ⟨5, "P5", 0, false⟩], []⟩ : Db).players,
          p.hadBye = false → ptb.points ≤ p.points) ∧
        (⟨[⟨1, "P1", 1, true⟩, ⟨2, "P2", 0, false⟩, ⟨3, "P3", 0, false⟩,
            ⟨4, "P4", 0, false⟩, ⟨5, "P5", 0, false⟩],
          [⟨1, 1, 1, none, some "1-0"⟩, ⟨2, 1, 2, some 3, none⟩,
            ⟨3, 1, 4, some 5, none⟩]⟩ : Db).players =
          awardBye (⟨[⟨1, "P1", 0, false⟩, ⟨2, "P2", 0, false⟩, ⟨3, "P3", 0, false⟩,
            ⟨4, "P4", 0, false⟩, ⟨5, "P5", 0, false⟩], []⟩ : Db).players ptb.id ∧
        ((⟨[⟨1, "P1", 1, true⟩, ⟨2, "P2", 0, false⟩, ⟨3, "P3", 0, false⟩,
            ⟨4, "P4", 0, false⟩, ⟨5, "P5", 0, false⟩],
          [⟨1, 1, 1, none, some "1-0"⟩, ⟨2, 1, 2, some 3, none⟩,
            ⟨3, 1, 4, some 5, none⟩]⟩ : Db).pairings.drop
              (⟨[⟨1, "P1", 0, false⟩, ⟨2, "P2", 0, false⟩, ⟨3, "P3", 0, false⟩,
                ⟨4, "P4", 0, false⟩, ⟨5, "P5", 0, false⟩], []⟩ : Db).pairings.length).filter
            (fun q => q.blackId.isNone) =
          [⟨nextPairingId (⟨[⟨1, "P1", 0, false⟩, ⟨2, "P2", 0, false⟩, ⟨3, "P3", 0, false⟩,
              ⟨4, "P4", 0, false⟩, ⟨5, "P5", 0, false⟩], []⟩ : Db).pairings,
            nextRoundNumber (⟨[⟨1, "P1", 0, false⟩, ⟨2, "P2", 0, false⟩, ⟨3, "P3", 0, false⟩,
              ⟨4, "P4", 0, false⟩, ⟨5, "P5", 0, false⟩], []⟩ : Db).pairings,
            ptb.id, none, some "1-0"⟩]) := by
  have hodd : (([⟨1, "P1", 0, false⟩, ⟨2, "P2", 0, false⟩, ⟨3, "P3", 0, false⟩,
      ⟨4, "P4", 0, false⟩, ⟨5, "P5", 0, false⟩] : List Player).length % 2 = 1) := by
    decide
  have hex : ∃ p ∈ ([⟨1, "P1", 0, false⟩, ⟨2, "P2", 0, false⟩, ⟨3, "P3", 0, false⟩,
      ⟨4, "P4", 0, false⟩, ⟨5, "P5", 0, false⟩] : List Player), p.hadBye = false :=
    ⟨⟨1, "P1", 0, false⟩, List.mem_cons_self _ _, rfl⟩
  have hok : generateNextRound ⟨[⟨1, "P1", 0, false⟩, ⟨2, "P2", 0, false⟩,
      ⟨3, "P3", 0, false⟩, ⟨4, "P4", 0, false⟩, ⟨5, "P5", 0, false⟩], []⟩ =
      .ok ⟨[⟨1, "P1", 1, true⟩, ⟨2, "P2", 0, false⟩, ⟨3, "P3", 0, false⟩,
          ⟨4, "P4", 0, false⟩, ⟨5, "P5", 0, false⟩],
        [⟨1, 1, 1, none, some "1-0"⟩, ⟨2, 1, 2, some 3, none⟩, ⟨3, 1, 4, some 5, none⟩]⟩ := by
    simp [generateNextRound, poolAndBye, jsSort, jsInsert, canonLt, byeLt, pairLoop,
      findOpponent, havePlayed, insertRecs, nextRoundNumber, nextPairingId, awardBye,
      byeRec, String.lt_iff_toList_lt]
    decide
  exact ⟨hodd, hex, hok, bye_recipient_min_points _ _ hodd hex hok⟩

theorem buchholzOf_eq_sum (players : List Player) (ids : List Nat) :
    buchholzOf players ids = (ids.map (lookupPoints players)).sum := by
  have key : ∀ (l : List Nat) (a : Rat),
      l.foldl (fun s i => s + lookupPoints players i) a =
        a + (l.map (lookupPoints players)).sum := by
    intro l
    induction l with
    | nil =>
      intro a
      simp
    | cons i l ih =>
      intro a
      simp [ih, add_assoc]
  simpa [buchholzOf] using key ids 0

theorem tiebreak_core (players : List Player) (h0 : ∀ q ∈ players, q.id ≠ 0) :
    ∀ os : List (Option Nat),
      ((os.filterMap fun o => match o with
          | none => none
          | some i => if i = 0 then none else some i).map (lookupPoints players)).sum =
        (os.map fun o => match o with
          | none => (0 : Rat)
          | some i => lookupPoints players i).sum := by
  intro os
  induction os with
  | nil => simp
  | cons o os ih =>
    cases o with
    | none => simpa using ih
    | some i =>
      by_cases hi : i = 0
      · subst hi
        have hl : lookupPoints players 0 = 0 := by
          rw [lookupPoints]
          have hfind : players.find? (fun p => decide (p.id = 0)) = none :=
            List.find?_eq_none.mpr fun q hq => by simpa using h0 q hq
          rw [hfind]
        simp [hl, ih]
      · simp [hi, ih]

theorem standLt_false_iff (a b : Standing) :
    standLt a b = false ↔
      a.Puntos ≤ b.Puntos ∧ (a.Puntos = b.Puntos → a.Buchholz ≤ b.Buchholz) := by
  simp only [standLt, Bool.or_eq_false_iff, Bool.and_eq_false_iff,
    decide_eq_false_iff_not, not_lt]
  constructor
  · rintro ⟨h1, h2⟩
    refine ⟨h1, fun heq => ?_⟩
    rcases h2 with h2 | h2
    · exact absurd heq h2
    · exact h2
  · rintro ⟨h1, h2⟩
    refine ⟨h1, ?_⟩
    by_cases heq : a.Puntos = b.Puntos
    · exact Or.inr (h2 heq)
    · exact Or.inl heq

theorem standLt_asym (a b : Standing) (h : standLt a b = true) : standLt b a = false := by
  rw [standLt_false_iff]
  simp only [standLt, Bool.or_eq_true, Bool.and_eq_true, decide_eq_true_eq] at h
  rcases h with h | ⟨heq, hb⟩
  · refine ⟨le_of_lt h, fun hc => ?_⟩
    rw [hc] at h
    exact absurd h (lt_irrefl _)
  · exact ⟨le_of_eq heq.symm, fun _ => le_of_lt hb⟩

theorem standLt_negtrans (a b c : Standing)
    (h₁ : standLt b a = false) (h₂ : standLt c b = false) : standLt c a = false := by
  rw [standLt_false_iff] at h₁ h₂ ⊢
  refine ⟨h₂.1.trans h₁.1, fun heq => ?_⟩
  have hba : b.Puntos = a.Puntos := le_antisymm h₁.1 (heq ▸ h₂.1)
  have hcb : c.Puntos = b.Puntos := heq.trans hba.symm
  exact (h₂.2 hcb).trans (h₁.2 hba)

theorem standLt_false_elim (a b : Standing) (h : standLt b a = false) :
    b.Puntos < a.Puntos ∨ (a.Puntos = b.Puntos ∧ b.Buchholz ≤ a.Buchholz) := by
  rw [standLt_false_iff] at h
  rcases lt_or_eq_of_le h.1 with hlt | heq
  · exact Or.inl hlt
  · exact Or.inr ⟨heq.symm, h.2 heq⟩

/-- **C8, counterexample.** Two players "B" and "A" in roster order, equal
points, tiebreaks and games: the export sort has *no* name tiebreak
(`b.Puntos - a.Puntos || b.Buchholz - a.Buchholz` only), and the stable sort
keeps the roster order, so "B" is ranked before "A" — the claimed ordering
"points desc, tiebreak desc, then *name ascending*" fails. -/
theorem standings_name_order_cex :
    ¬ List.Pairwise (fun a b => b.Puntos < a.Puntos ∨ (a.Puntos = b.Puntos ∧
        (b.Buchholz < a.Buchholz ∨ (a.Buchholz = b.Buchholz ∧ a.Nombre ≤ b.Nombre))))
      (computeStandings [⟨1, "B", 0, false⟩, ⟨2, "A", 0, false⟩] []) := by
  have heval : computeStandings [⟨1, "B", 0, false⟩, ⟨2, "A", 0, false⟩] [] =
      [⟨"B", 0, 0, 0⟩, ⟨"A", 0, 0, 0⟩] := by
    simp [computeStandings, standingOf, opponentIds, buchholzOf, lookupPoints,
      jsSort, jsInsert, standLt]
  rw [heval]
  intro hp
  have h := (List.pairwise_cons.mp hp).1 ⟨"A", 0, 0, 0⟩ (List.mem_cons_self _ _)
  simp only [String.le_iff_toList_le] at h
  rcases h with h | ⟨-, h⟩
  · exact absurd h (by simp)
  · rcases h with h | ⟨-, h⟩
    · exact absurd h (by simp)
    · revert h
      decide

/-- **C8, amended.** For every roster (with the real, positive ids) and
pairing list: every player's computed Buchholz equals the spec's tiebreak —
the sum, over the pairings they appear in, of the current points of the
opponent in that pairing (a bye contributing no opponent) — and the
standings are ordered by points descending, then tiebreak descending.  Ties
beyond that keep roster order: name ascending is *not* enforced. -/
theorem standings_tiebreak_and_order (players : List Player) (pairings : List Pairing)
    (h0 : ∀ p ∈ players, p.id ≠ 0) :
    (∀ p ∈ players,
      (standingOf players pairings p).Buchholz = specTiebreak players pairings p) ∧
      List.Pairwise (fun a b => b.Puntos < a.Puntos ∨
          (a.Puntos = b.Puntos ∧ b.Buchholz ≤ a.Buchholz))
        (computeStandings players pairings) := by
  constructor
  · intro p hp
    show buchholzOf players (opponentIds pairings p) = _
    rw [buchholzOf_eq_sum, opponentIds, specTiebreak, tiebreak_core players h0,
      List.map_map]
    rfl
  · have hp := jsSort_pairwise standLt standLt_asym standLt_negtrans
      (players.map (standingOf players pairings))
    exact hp.imp fun h => standLt_false_elim _ _ h

/-- Witness for `standings_tiebreak_and_order` on a decided one-game
tournament. -/
theorem standings_tiebreak_and_order_witness :
    (∀ p ∈ ([⟨1, "A", 1, false⟩, ⟨2, "B", 0, false⟩] : List Player), p.id ≠ 0) ∧
      ((∀ p ∈ ([⟨1, "A", 1, false⟩, ⟨2, "B", 0, false⟩] : List Player),
        (standingOf [⟨1, "A", 1, false⟩, ⟨2, "B", 0, false⟩]
            [⟨1, 1, 1, some 2, some "1-0"⟩] p).Buchholz =
          specTiebreak [⟨1, "A", 1, false⟩, ⟨2, "B", 0, false⟩]
            [⟨1, 1, 1, some 2, some "1-0"⟩] p) ∧
        List.Pairwise (fun a b => b.Puntos < a.Puntos ∨
            (a.Puntos = b.Puntos ∧ b.Buchholz ≤ a.Buchholz))
          (computeStandings [⟨1, "A", 1, false⟩, ⟨2, "B", 0, false⟩]
            [⟨1, 1, 1, some 2, some "1-0"⟩])) := by
  have h0 : ∀ p ∈ ([⟨1, "A", 1, false⟩, ⟨2, "B", 0, false⟩] : List Player), p.id ≠ 0 := by
    intro p hp
    rcases List.mem_cons.mp hp with heq | hp'
    · rw [heq]
      decide
    · rcases List.mem_cons.mp hp' with heq | hp''
      · rw [heq]
        decide
      · exact absurd hp'' (List.not_mem_nil p)
  exact ⟨h0, standings_tiebreak_and_order _ _ h0⟩

theorem opponentIds_length (pairings : List Pairing) (player : Player)
    (hids : ∀ q ∈ pairings, q.whiteId ≠ 0 ∧ q.blackId ≠ some 0) :
    (opponentIds pairings player).length = specGamesPlayed pairings player := by
  induction pairings with
  | nil => simp [opponentIds, specGamesPlayed]
  | cons q qs ih =>
    have hq := hids q (List.mem_cons_self q qs)
    have hqs : ∀ r ∈ qs, r.whiteId ≠ 0 ∧ r.blackId ≠ some 0 :=
      fun r hr => hids r (List.mem_cons_of_mem q hr)
    have ihq := ih hqs
    simp only [opponentIds, specGamesPlayed, List.filter_cons] at ihq ⊢
    by_cases hw : q.whiteId = player.id
    · cases hb : q.blackId with
      | none => simpa [hw, hb] using ihq
      | some b =>
        have hb0 : b ≠ 0 := by
          intro hc
          apply hq.2
          rw [hb, hc]
        simpa [hw, hb, hb0] using ihq
    · by_cases hbp : q.blackId = some player.id
      · have hw0 : q.whiteId ≠ 0 := hq.1
        simpa [hw, hbp, hw0] using ihq
      · simpa [hw, hbp] using ihq

/-- **C10.** For every player: the exported `Partidas` (games played) counts
exactly the pairings in which the player faced a present opponent — the
player is white with a non-NULL black, or is black; a bye pairing (black
NULL) never increments it, even though the bye awarded a point. -/
theorem gamesPlayed_counts_played_opponents (players : List Player)
    (pairings : List Pairing) (player : Player)
    (hids : ∀ q ∈ pairings, q.whiteId ≠ 0 ∧ q.blackId ≠ some 0) :
    (standingOf players pairings player).Partidas = specGamesPlayed pairings player :=
  opponentIds_length pairings player hids

/-- Witness for `gamesPlayed_counts_played_opponents`: a player with one bye
and one real game has `Partidas = 1`. -/
theorem gamesPlayed_counts_played_opponents_witness :
    (∀ q ∈ ([⟨1, 1, 1, none, some "1-0"⟩, ⟨2, 1, 2, some 1, none⟩] : List Pairing),
        q.whiteId ≠ 0 ∧ q.blackId ≠ some 0) ∧
      (standingOf [⟨1, "A", 1, true⟩, ⟨2, "B", 0, false⟩]
          [⟨1, 1, 1, none, some "1-0"⟩, ⟨2, 1, 2, some 1, none⟩]
          ⟨1, "A", 1, true⟩).Partidas =
        specGamesPlayed [⟨1, 1, 1, none, some "1-0"⟩, ⟨2, 1, 2, some 1, none⟩]
          ⟨1, "A", 1, true⟩ := by
  have hids : ∀ q ∈ ([⟨1, 1, 1, none, some "1-0"⟩, ⟨2, 1, 2, some 1, none⟩] : List Pairing),
      q.whiteId ≠ 0 ∧ q.blackId ≠ some 0 := by
    intro q hq
    rcases List.mem_cons.mp hq with heq | hq'
    · rw [heq]
      exact ⟨by decide, by decide⟩
    · rcases List.mem_cons.mp hq' with heq | hq''
      · rw [heq]
        exact ⟨by decide, by decide⟩
      · exact absurd hq'' (List.not_mem_nil q)
  exact ⟨hids, gamesPlayed_counts_played_opponents _ _ _ hids⟩

/-- Witness for `generateNextRound_frame` on a two-player first round. -/
theorem generateNextRound_frame_witness :
    generateNextRound ⟨[⟨1, "A", 0, false⟩, ⟨2, "B", 0, false⟩], []⟩ =
        .ok ⟨[⟨1, "A", 0, false⟩, ⟨2, "B", 0, false⟩], [⟨1, 1, 1, some 2, none⟩]⟩ ∧
      ((∃ rest, (⟨[⟨1, "A", 0, false⟩, ⟨2, "B", 0, false⟩],
          [⟨1, 1, 1, some 2, none⟩]⟩ : Db).pairings =
            (⟨[⟨1, "A", 0, false⟩, ⟨2, "B", 0, false⟩], []⟩ : Db).pairings ++ rest) ∧
        (⟨[⟨1, "A", 0, false⟩, ⟨2, "B", 0, false⟩],
          [⟨1, 1, 1, some 2, none⟩]⟩ : Db).players.length =
          (⟨[⟨1, "A", 0, false⟩, ⟨2, "B", 0, false⟩], []⟩ : Db).players.length ∧
        ∃ t : Option Nat,
          ((⟨[⟨1, "A", 0, false⟩, ⟨2, "B", 0, false⟩], []⟩ : Db).players.length % 2 = 0 →
            t = none) ∧
          ((⟨[⟨1, "A", 0, false⟩, ⟨2, "B", 0, false⟩], []⟩ : Db).players.length % 2 = 1 →
            ∃ b, t = some b ∧
              b ∈ (⟨[⟨1, "A", 0, false⟩, ⟨2, "B", 0, false⟩], []⟩ : Db).players.map Player.id) ∧
          ∀ i (h₁ : i < (⟨[⟨1, "A", 0, false⟩, ⟨2, "B", 0, false⟩], []⟩ : Db).players.length)
            (h₂ : i < (⟨[⟨1, "A", 0, false⟩, ⟨2, "B", 0, false⟩],
              [⟨1, 1, 1, some 2, none⟩]⟩ : Db).players.length),
            (some ((⟨[⟨1, "A", 0, false⟩, ⟨2, "B", 0, false⟩], []⟩ : Db).players.get
                ⟨i, h₁⟩).id ≠ t →
              (⟨[⟨1, "A", 0, false⟩, ⟨2, "B", 0, false⟩],
                [⟨1, 1, 1, some 2, none⟩]⟩ : Db).players.get ⟨i, h₂⟩ =
                (⟨[⟨1, "A", 0, false⟩, ⟨2, "B", 0, false⟩], []⟩ : Db).players.get ⟨i, h₁⟩) ∧
            (some ((⟨[⟨1, "A", 0, false⟩, ⟨2, "B", 0, false⟩], []⟩ : Db).players.get
                ⟨i, h₁⟩).id = t →
              ((⟨[⟨1, "A", 0, false⟩, ⟨2, "B", 0, false⟩],
                [⟨1, 1, 1, some 2, none⟩]⟩ : Db).players.get ⟨i, h₂⟩).points =
                ((⟨[⟨1, "A", 0, false⟩, ⟨2, "B", 0, false⟩], []⟩ : Db).players.get
                  ⟨i, h₁⟩).points + 1 ∧
              ((⟨[⟨1, "A", 0, false⟩, ⟨2, "B", 0, false⟩],
                [⟨1, 1, 1, some 2, none⟩]⟩ : Db).players.get ⟨i, h₂⟩).hadBye = true ∧
              ((⟨[⟨1, "A", 0, false⟩, ⟨2, "B", 0, false⟩],
                [⟨1, 1, 1, some 2, none⟩]⟩ : Db).players.get ⟨i, h₂⟩).name =
                ((⟨[⟨1, "A", 0, false⟩, ⟨2, "B", 0, false⟩], []⟩ : Db).players.get
                  ⟨i, h₁⟩).name ∧
              ((⟨[⟨1, "A", 0, false⟩, ⟨2, "B", 0, false⟩],
                [⟨1, 1, 1, some 2, none⟩]⟩ : Db).players.get ⟨i, h₂⟩).id =
                ((⟨[⟨1, "A", 0, false⟩, ⟨2, "B", 0, false⟩], []⟩ : Db).players.get
                  ⟨i, h₁⟩).id)) := by
  have hok : generateNextRound ⟨[⟨1, "A", 0, false⟩, ⟨2, "B", 0, false⟩], []⟩ =
      .ok ⟨[⟨1, "A", 0, false⟩, ⟨2, "B", 0, false⟩], [⟨1, 1, 1, some 2, none⟩]⟩ := by
    simp [generateNextRound, poolAndBye, jsSort, jsInsert, canonLt, byeLt, pairLoop,
      findOpponent, havePlayed, insertRecs, nextRoundNumber, nextPairingId, awardBye,
      byeRec, String.lt_iff_toList_lt]
    decide
  exact ⟨hok, generateNextRound_frame _ _ hok⟩

/-- Does the new pairing row `g` involve the player id `x` (as white or as
black)? -/
def involvesB (x : Nat) (g : NewPairing) : Bool :=
  decide (g.whiteId = x ∨ g.blackId = some x)

/-- Does the inserted pairing row `q` involve the player id `x`? -/
def involvesRow (x : Nat) (q : Pairing) : Bool :=
  decide (q.whiteId = x ∨ q.blackId = some x)

theorem unpaired_cons_cons (fullPool : List Player) (a b : Nat) (paired : List Nat) :
    (fullPool.filter fun p => decide (p.id ∉ (a :: b :: paired))) =
      ((fullPool.filter fun p => decide (p.id ∉ paired)).filter
        fun p => decide (p.id ≠ a)).filter fun p => decide (p.id ≠ b) := by
  rw [List.filter_filter, List.filter_filter]
  apply List.filter_congr
  intro p _
  rw [← Bool.decide_and, ← Bool.decide_and, decide_eq_decide]
  simp only [List.mem_cons, not_or]
  tauto

theorem length_filter_ne (l : List Player) (hnodup : (l.map Player.id).Nodup)
    (a : Nat) (ha : a ∈ l.map Player.id) :
    (l.filter fun p => decide (p.id ≠ a)).length + 1 = l.length := by
  induction l with
  | nil => simp at ha
  | cons u t ih =>
    rw [List.map_cons, List.nodup_cons] at hnodup
    by_cases hu : u.id = a
    · rw [List.filter_cons, if_neg (by simp [hu])]
      have hall : t.filter (fun p => decide (p.id ≠ a)) = t := by
        rw [List.filter_eq_self]
        intro p hp
        simp only [decide_eq_true_eq]
        intro hc
        exact hnodup.1 (hu ▸ hc ▸ List.mem_map_of_mem Player.id hp)
      rw [hall]
      simp
    · rw [List.filter_cons, if_pos (by simp [hu])]
      have ha' : a ∈ t.map Player.id := by
        rcases List.mem_map.mp ha with ⟨p, hp, hpa⟩
        rcases List.mem_cons.mp hp with heq | hp'
        · exact absurd (heq ▸ hpa) hu
        · exact List.mem_map.mpr ⟨p, hp', hpa⟩
      have := ih hnodup.2 ha'
      simp only [List.length_cons]
      omega

theorem mem_filter_map_id (l : List Player) (x : Nat) (pr : Player → Bool) :
    x ∈ (l.filter pr).map Player.id ↔ ∃ p ∈ l, pr p = true ∧ p.id = x := by
  rw [List.mem_map]
  constructor
  · rintro ⟨p, hp, hpx⟩
    rw [List.mem_filter] at hp
    exact ⟨p, hp.1, hp.2, hpx⟩
  · rintro ⟨p, hp, hpr, hpx⟩
    exact ⟨p, List.mem_filter.mpr ⟨hp, hpr⟩, hpx⟩

theorem findOpponent_success (hist : List Pairing) (fullPool : List Player)
    (paired : List Nat) (p1 : Player) (q : Player)
    (hq : q ∈ fullPool) (hq1 : q.id ∉ paired) (hq2 : q.id ≠ p1.id) :
    ∃ p2, findOpponent hist fullPool paired p1 = some p2 ∧
      p2 ∈ fullPool ∧ p2.id ∉ paired ∧ p2.id ≠ p1.id := by
  rw [findOpponent]
  cases hfind : fullPool.find? fun p2 =>
      decide (p1.id ≠ p2.id) && decide (p2.id ∉ paired) && !havePlayed hist p1.id p2.id with
  | some p2 =>
    have hmem := List.mem_of_find?_eq_some hfind
    have hpred := List.find?_some hfind
    simp only [Bool.and_eq_true, decide_eq_true_eq, Bool.not_eq_true'] at hpred
    exact ⟨p2, rfl, hmem, hpred.1.2, fun hc => hpred.1.1 hc.symm⟩
  | none =>
    cases hfind2 : fullPool.find? fun p2 =>
        decide (p2.id ≠ p1.id) && decide (p2.id ∉ paired) with
    | some p2 =>
      have hmem := List.mem_of_find?_eq_some hfind2
      have hpred := List.find?_some hfind2
      simp only [Bool.and_eq_true, decide_eq_true_eq] at hpred
      exact ⟨p2, rfl, hmem, hpred.2, hpred.1⟩
    | none =>
      exfalso
      have := List.find?_eq_none.mp hfind2 q hq
      simp [hq1, hq2] at this

theorem findOpponent_rematch (hist : List Pairing) (fullPool : List Player)
    (paired : List Nat) (p1 p2 : Player)
    (hfo : findOpponent hist fullPool paired p1 = some p2)
    (hmet : havePlayed hist p1.id p2.id = true) :
    ∀ r ∈ fullPool, r.id ≠ p1.id → r.id ∉ paired → havePlayed hist p1.id r.id = true := by
  intro r hr hr1 hr2
  by_contra hcon
  rw [findOpponent] at hfo
  cases hfind : fullPool.find? fun pp =>
      decide (p1.id ≠ pp.id) && decide (pp.id ∉ paired) && !havePlayed hist p1.id pp.id with
  | some p2' =>
    rw [hfind] at hfo
    cases hfo
    have hpred := List.find?_some hfind
    simp only [Bool.and_eq_true, decide_eq_true_eq, Bool.not_eq_true'] at hpred
    rw [hpred.2] at hmet
    exact absurd hmet (by simp)
  | none =>
    have hnone := List.find?_eq_none.mp hfind r hr
    apply hnone
    simp only [Bool.and_eq_true, decide_eq_true_eq, Bool.not_eq_true']
    refine ⟨⟨fun hc => hr1 hc.symm, hr2⟩, ?_⟩
    cases hcp : havePlayed hist p1.id r.id
    · rfl
    · exact absurd hcp hcon

/-- The heart of the pairing loop, by induction along the pool.  Given that
the full pool has distinct ids, that every not-yet-paired pool member is
still ahead in the walk, and that the number of unpaired players is even:
(1) every pool player ends up paired; (2) the loop emits exactly half as
many game rows as there were unpaired players; (3) each unpaired player id
appears in exactly one emitted row and already-paired ids in none; (4) a row
pairing two players who already met is emitted only when every pool player
not used by an earlier row (and different from the row's white player) had
already met that white player. -/
theorem pairLoop_master (hist : List Pairing) (fullPool : List Player)
    (hnd : (fullPool.map Player.id).Nodup) :
    ∀ (pool : List Player) (paired : List Nat),
      pool ⊆ fullPool →
      (∀ p ∈ fullPool, p.id ∉ paired → p ∈ pool) →
      (fullPool.filter fun p => decide (p.id ∉ paired)).length % 2 = 0 →
      (∀ p ∈ fullPool, p.id ∈ (pairLoop hist fullPool pool paired).2) ∧
        (pairLoop hist fullPool pool paired).1.length * 2 =
          (fullPool.filter fun p => decide (p.id ∉ paired)).length ∧
        (∀ x : Nat,
          (pairLoop hist fullPool pool paired).1.countP (involvesB x) =
            if x ∈ (fullPool.filter fun p => decide (p.id ∉ paired)).map Player.id
            then 1 else 0) ∧
        (∀ i (hi : i < (pairLoop hist fullPool pool paired).1.length) (b : Nat),
          ((pairLoop hist fullPool pool paired).1.get ⟨i, hi⟩).blackId = some b →
          havePlayed hist ((pairLoop hist fullPool pool paired).1.get ⟨i, hi⟩).whiteId b
            = true →
          ∀ p2 ∈ fullPool,
            p2.id ≠ ((pairLoop hist fullPool pool paired).1.get ⟨i, hi⟩).whiteId →
            p2.id ∉ paired →
            (∀ j (hj : j < i),
              involvesB p2.id ((pairLoop hist fullPool pool paired).1.get
                ⟨j, lt_trans hj hi⟩) = false) →
            havePlayed hist
              ((pairLoop hist fullPool pool paired).1.get ⟨i, hi⟩).whiteId p2.id = true) := by
  intro pool
  induction pool with
  | nil =>
    intro paired hsub hcov hpar
    have hU : (fullPool.filter fun p => decide (p.id ∉ paired)) = [] := by
      rw [List.eq_nil_iff_forall_not_mem]
      intro p hp
      rw [List.mem_filter] at hp
      exact absurd (hcov p hp.1 (by simpa using hp.2)) (List.not_mem_nil p)
    refine ⟨?_, ?_, ?_, ?_⟩
    · intro p hp
      by_contra hnp
      exact absurd (hcov p hp hnp) (List.not_mem_nil p)
    · rw [hU]
      simp [pairLoop]
    · intro x
      rw [hU]
      simp [pairLoop]
    · intro i hi
      simp [pairLoop] at hi
  | cons p1 rest ih =>
    intro paired hsub hcov hpar
    by_cases hp : p1.id ∈ paired
    · have e : pairLoop hist fullPool (p1 :: rest) paired =
          pairLoop hist fullPool rest paired := by
        rw [pairLoop, if_pos hp]
      rw [e]
      apply ih paired (fun p hp' => hsub (List.mem_cons_of_mem p1 hp')) ?_ hpar
      intro p hpf hpnp
      rcases List.mem_cons.mp (hcov p hpf hpnp) with heq | h
      · rw [heq] at hpnp
        exact absurd hp hpnp
      · exact h
    · have hp1full : p1 ∈ fullPool := hsub (List.mem_cons_self p1 rest)
      have hp1U : p1 ∈ fullPool.filter fun p => decide (p.id ∉ paired) :=
        List.mem_filter.mpr ⟨hp1full, by simpa using hp⟩
      have hUnodup : ((fullPool.filter fun p => decide (p.id ∉ paired)).map Player.id).Nodup :=
        List.Nodup.sublist ((List.filter_sublist fullPool).map Player.id) hnd
      have hqex : ∃ q ∈ fullPool, q.id ∉ paired ∧ q.id ≠ p1.id := by
        cases hU : fullPool.filter (fun p => decide (p.id ∉ paired)) with
        | nil =>
          rw [hU] at hp1U
          exact absurd hp1U (List.not_mem_nil p1)
        | cons u t =>
          cases t with
          | nil =>
            rw [hU] at hpar
            simp at hpar
          | cons v t2 =>
            have hu : u ∈ fullPool.filter fun p => decide (p.id ∉ paired) := by
              rw [hU]
              exact List.mem_cons_self _ _
            have hv : v ∈ fullPool.filter fun p => decide (p.id ∉ paired) := by
              rw [hU]
              exact List.mem_cons_of_mem u (List.mem_cons_self _ _)
            have hu' := List.mem_filter.mp hu
            have hv' := List.mem_filter.mp hv
            have huv : u.id ≠ v.id := by
              rw [hU, List.map_cons, List.map_cons, List.nodup_cons] at hUnodup
              intro hc
              exact hUnodup.1 (by rw [hc]; exact List.mem_cons_self _ _)
            by_cases hup1 : u.id = p1.id
            · refine ⟨v, hv'.1, by simpa using hv'.2, ?_⟩
              rw [← hup1]
              exact fun hc => huv hc.symm
            · exact ⟨u, hu'.1, by simpa using hu'.2, hup1⟩
      obtain ⟨q, hqmem, hqnp, hqne⟩ := hqex
      obtain ⟨p2, hfo, hp2mem, hp2np, hp2ne⟩ :=
        findOpponent_success hist fullPool paired p1 q hqmem hqnp hqne
      have e : pairLoop hist fullPool (p1 :: rest) paired =
          (⟨p1.id, some p2.id, none⟩ ::
              (pairLoop hist fullPool rest (p1.id :: p2.id :: paired)).1,
            (pairLoop hist fullPool rest (p1.id :: p2.id :: paired)).2) := by
        rw [pairLoop, if_neg hp, hfo]
      have hsub' : rest ⊆ fullPool := fun p hp' => hsub (List.mem_cons_of_mem p1 hp')
      have hcov' : ∀ p ∈ fullPool, p.id ∉ (p1.id :: p2.id :: paired) → p ∈ rest := by
        intro p hpf hpnp
        have hnp : p.id ∉ paired := fun hc => hpnp (by simp [hc])
        have hne1 : p.id ≠ p1.id := fun hc => hpnp (by simp [hc])
        rcases List.mem_cons.mp (hcov p hpf hnp) with heq | h
        · exact absurd (congrArg Player.id heq) hne1
        · exact h
      have hU' := unpaired_cons_cons fullPool p1.id p2.id paired
      have hlen1 : ((fullPool.filter fun p => decide (p.id ∉ paired)).filter
          fun p => decide (p.id ≠ p1.id)).length + 1 =
          (fullPool.filter fun p => decide (p.id ∉ paired)).length :=
        length_filter_ne _ hUnodup p1.id (List.mem_map_of_mem Player.id hp1U)
      have hp2U : p2 ∈ fullPool.filter fun p => decide (p.id ∉ paired) :=
        List.mem_filter.mpr ⟨hp2mem, by simpa using hp2np⟩
      have hp2U1 : p2 ∈ (fullPool.filter fun p => decide (p.id ∉ paired)).filter
          fun p => decide (p.id ≠ p1.id) :=
        List.mem_filter.mpr ⟨hp2U, by simpa using hp2ne⟩
      have hU1nodup : (((fullPool.filter fun p => decide (p.id ∉ paired)).filter
          fun p => decide (p.id ≠ p1.id)).map Player.id).Nodup :=
        List.Nodup.sublist ((List.filter_sublist _).map Player.id) hUnodup
      have hlen2 : (((fullPool.filter fun p => decide (p.id ∉ paired)).filter
          fun p => decide (p.id ≠ p1.id)).filter
            fun p => decide (p.id ≠ p2.id)).length + 1 =
          ((fullPool.filter fun p => decide (p.id ∉ paired)).filter
            fun p => decide (p.id ≠ p1.id)).length :=
        length_filter_ne _ hU1nodup p2.id (List.mem_map_of_mem Player.id hp2U1)
      have hparlen : (fullPool.filter fun p => decide (p.id ∉ (p1.id :: p2.id :: paired))).length
          + 2 = (fullPool.filter fun p => decide (p.id ∉ paired)).length := by
        rw [hU']
        omega
      have hpar' : (fullPool.filter
          fun p => decide (p.id ∉ (p1.id :: p2.id :: paired))).length % 2 = 0 := by
        omega
      obtain ⟨ihG1, ihG2, ihG3, ihG5⟩ := ih (p1.id :: p2.id :: paired) hsub' hcov' hpar'
      rw [e]
      refine ⟨?_, ?_, ?_, ?_⟩
      · intro p hpf
        exact ihG1 p hpf
      · simp only [List.length_cons]
        omega
      · intro x
        simp only [List.countP_cons]
        by_cases hx1 : x = p1.id
        · have hhead : involvesB x ⟨p1.id, some p2.id, none⟩ = true := by
            simp [involvesB, hx1]
          rw [hhead, if_pos rfl]
          have htail : (pairLoop hist fullPool rest (p1.id :: p2.id :: paired)).1.countP
              (involvesB x) = 0 := by
            rw [ihG3 x, if_neg]
            rw [hU']
            intro hc
            rcases List.mem_map.mp hc with ⟨pz, hpz, hpzx⟩
            rw [List.mem_filter] at hpz
            have hpz1 := List.mem_filter.mp hpz.1
            have : pz.id ≠ p1.id := by simpa using hpz1.2
            exact this (hpzx.trans hx1)
          rw [htail]
          rw [if_pos (by rw [hx1]; exact List.mem_map_of_mem Player.id hp1U)]
        · by_cases hx2 : x = p2.id
          · have hhead : involvesB x ⟨p1.id, some p2.id, none⟩ = true := by
              simp [involvesB, hx2]
            rw [hhead, if_pos rfl]
            have htail : (pairLoop hist fullPool rest (p1.id :: p2.id :: paired)).1.countP
                (involvesB x) = 0 := by
              rw [ihG3 x, if_neg]
              rw [hU']
              intro hc
              rcases List.mem_map.mp hc with ⟨pz, hpz, hpzx⟩
              rw [List.mem_filter] at hpz
              have : pz.id ≠ p2.id := by simpa using hpz.2
              exact this (hpzx.trans hx2)
            rw [htail]
            rw [if_pos (by rw [hx2]; exact List.mem_map_of_mem Player.id hp2U)]
          · have hhead : involvesB x ⟨p1.id, some p2.id, none⟩ = false := by
              simp only [involvesB, decide_eq_false_iff_not]
              rintro (hc | hc)
              · exact hx1 hc.symm
              · rw [Option.some_inj] at hc
                exact hx2 hc.symm
            rw [hhead]
            simp only [Bool.false_eq_true, if_false, add_zero]
            rw [ihG3 x, hU']
            by_cases hmemU : x ∈ (fullPool.filter fun p => decide (p.id ∉ paired)).map Player.id
            · rw [if_pos hmemU, if_pos]
              rcases List.mem_map.mp hmemU with ⟨pz, hpz, hpzx⟩
              refine List.mem_map.mpr ⟨pz, ?_, hpzx⟩
              refine List.mem_filter.mpr ⟨List.mem_filter.mpr ⟨hpz, ?_⟩, ?_⟩
              · simp only [decide_eq_true_eq]
                rw [hpzx]
                exact fun hc => hx1 hc
              · simp only [decide_eq_true_eq]
                rw [hpzx]
                exact fun hc => hx2 hc
            · rw [if_neg hmemU, if_neg]
              intro hc
              rcases List.mem_map.mp hc with ⟨pz, hpz, hpzx⟩
              rw [List.mem_filter] at hpz
              have hpz1 := List.mem_filter.mp hpz.1
              exact hmemU (List.mem_map.mpr ⟨pz, hpz1.1, hpzx⟩)
      · intro i hi b hb hmet p2c hp2cmem hp2cne hp2cnp hjall
        cases i with
        | zero =>
          have hb' : p2.id = b := by
            simpa using hb
          apply findOpponent_rematch hist fullPool paired p1 p2 hfo
          · rw [hb']
            exact hmet
          · exact hp2cmem
          · exact hp2cne
          · exact hp2cnp
        | succ k =>
          have hi' : k < (pairLoop hist fullPool rest (p1.id :: p2.id :: paired)).1.length :=
            Nat.lt_of_succ_lt_succ (by simpa using hi)
          have hhead0 := hjall 0 (Nat.succ_pos k)
          have hp2cne2 : p2c.id ∉ (p1.id :: p2.id :: paired) := by
            simp only [involvesB, decide_eq_false_iff_not] at hhead0
            intro hc
            rcases List.mem_cons.mp hc with hc1 | hc2
            · exact hhead0 (Or.inl hc1.symm)
            · rcases List.mem_cons.mp hc2 with hc3 | hc4
              · refine hhead0 (Or.inr ?_)
                rw [hc3]
                rfl
              · exact hp2cnp hc4
          refine ihG5 k hi' b ?_ ?_ p2c hp2cmem ?_ hp2cne2 ?_
          · exact hb
          · exact hmet
          · exact hp2cne
          · intro j hj
            have := hjall (j + 1) (Nat.succ_lt_succ hj)
            exact this

theorem filter_not_mem_nil (l : List Player) :
    (l.filter fun p => decide (p.id ∉ ([] : List Nat))) = l := by
  rw [List.filter_eq_self]
  intro p _
  simp

theorem insertRecs_countP_involves (round : Nat) (x : Nat) :
    ∀ (n : Nat) (rs : List NewPairing),
      (insertRecs round n rs).countP (involvesRow x) = rs.countP (involvesB x) := by
  intro n rs
  induction rs generalizing n with
  | nil => simp [insertRecs]
  | cons r rs ih =>
    rw [insertRecs, List.countP_cons, List.countP_cons, ih n.succ]
    rfl

theorem insertRecs_countP_blackId (round : Nat) (pb : Option Nat → Bool) :
    ∀ (n : Nat) (rs : List NewPairing),
      (insertRecs round n rs).countP (fun q => pb q.blackId) =
        rs.countP fun g => pb g.blackId := by
  intro n rs
  induction rs generalizing n with
  | nil => simp [insertRecs]
  | cons r rs ih =>
    rw [insertRecs, List.countP_cons, List.countP_cons, ih n.succ]

theorem insertRecs_filter_some_pairs (round : Nat) :
    ∀ (n : Nat) (rs : List NewPairing),
      ((insertRecs round n rs).filter fun q => q.blackId.isSome).map
          (fun q => (q.whiteId, q.blackId)) =
        (rs.filter fun g => g.blackId.isSome).map fun g => (g.whiteId, g.blackId) := by
  intro n rs
  induction rs generalizing n with
  | nil => simp [insertRecs]
  | cons r rs ih =>
    rw [insertRecs, List.filter_cons, List.filter_cons]
    cases hb : r.blackId.isSome with
    | false =>
      simp only [Bool.false_eq_true, if_false]
      exact ih n.succ
    | true =>
      simp only [if_true, List.map_cons]
      rw [ih n.succ]

theorem pool_nodup_even (table : List Player) (hnd : (table.map Player.id).Nodup)
    (h : table.length % 2 = 0) :
    (((poolAndBye table).pool).map Player.id).Nodup := by
  rw [poolAndBye_even table h]
  exact ((jsSort_perm canonLt table).map Player.id).nodup_iff.mpr hnd

/-- **C3.** On a tournament with `n ≥ 2` players (distinct ids) and no prior
pairings, `generateNextRound` produces exactly `⌊n/2⌋` two-player rows plus
exactly one bye row when `n` is odd (none when even), and every roster
player appears in exactly one of the produced rows. -/
theorem generateNextRound_first_round_shape (db db' : Db)
    (hhist : db.pairings = []) (h2 : 2 ≤ db.players.length)
    (hnd : (db.players.map Player.id).Nodup)
    (hok : generateNextRound db = .ok db') :
    (db'.pairings.countP fun q => q.blackId.isSome) = db.players.length / 2 ∧
      (db'.pairings.countP fun q => q.blackId.isNone) =
        (if db.players.length % 2 = 1 then 1 else 0) ∧
      ∀ p ∈ db.players, db'.pairings.countP (involvesRow p.id) = 1 := by
  have hlen : ¬ db.players.length < 2 := by omega
  rw [generateNextRound, if_neg hlen] at hok
  have hdb' : db' =
      { players := (poolAndBye db.players).players
        pairings := db.pairings ++
          insertRecs (nextRoundNumber db.pairings) (nextPairingId db.pairings)
            ((poolAndBye db.players).byeRecs ++
              (pairLoop db.pairings (poolAndBye db.players).pool
                (poolAndBye db.players).pool []).1) } := by
    cases hok
    rfl
  have hsplit : db'.pairings = db.pairings ++
      insertRecs (nextRoundNumber db.pairings) (nextPairingId db.pairings)
        ((poolAndBye db.players).byeRecs ++
          (pairLoop db.pairings (poolAndBye db.players).pool
            (poolAndBye db.players).pool []).1) := by
    rw [hdb']
  rw [hsplit, hhist]
  rcases Nat.mod_two_eq_zero_or_one db.players.length with hpar | hpar
  · have hpb := poolAndBye_even db.players hpar
    rw [hpb]
    dsimp only
    have hpoolperm := jsSort_perm canonLt db.players
    have hpoolnd : ((jsSort canonLt db.players).map Player.id).Nodup :=
      (hpoolperm.map Player.id).nodup_iff.mpr hnd
    have hpoollen : (jsSort canonLt db.players).length = db.players.length :=
      jsSort_length canonLt db.players
    have hU0 := filter_not_mem_nil (jsSort canonLt db.players)
    obtain ⟨G1, G2, G3, G5⟩ := pairLoop_master [] (jsSort canonLt db.players) hpoolnd
      (jsSort canonLt db.players) [] (List.Subset.refl _) (fun p hp _ => hp)
      (by rw [hU0]; omega)
    rw [hU0] at G2 G3
    have hshape := pairLoop_games_shape [] (jsSort canonLt db.players)
      (jsSort canonLt db.players) []
    refine ⟨?_, ?_, ?_⟩
    · rw [List.nil_append, List.nil_append, insertRecs_countP_blackId]
      have : (pairLoop [] (jsSort canonLt db.players)
          (jsSort canonLt db.players) []).1.countP (fun g => g.blackId.isSome) =
          (pairLoop [] (jsSort canonLt db.players)
            (jsSort canonLt db.players) []).1.length := by
        rw [List.countP_eq_length]
        intro g hg
        obtain ⟨⟨b, hb⟩, -⟩ := hshape g hg
        simp [hb]
      rw [this]
      omega
    · rw [List.nil_append, List.nil_append, insertRecs_countP_blackId]
      have : (pairLoop [] (jsSort canonLt db.players)
          (jsSort canonLt db.players) []).1.countP (fun g => g.blackId.isNone) = 0 := by
        rw [List.countP_eq_zero]
        intro g hg
        obtain ⟨⟨b, hb⟩, -⟩ := hshape g hg
        simp [hb]
      rw [this, if_neg (by omega)]
    · intro p hp
      rw [List.nil_append, List.nil_append, insertRecs_countP_involves]
      rw [G3 p.id, if_pos]
      exact List.mem_map_of_mem Player.id ((jsSort_mem canonLt db.players p).mpr hp)
  · obtain ⟨ptb, X, hmem, hperm, hpb⟩ := poolAndBye_odd db.players hpar
    rw [hpb]
    dsimp only
    have hXnd : (X.map Player.id).Nodup := (hperm.map Player.id).nodup_iff.mpr hnd
    have hXlen : X.length = db.players.length := hperm.length_eq
    have hptbX : ptb ∈ X := hperm.mem_iff.mpr hmem
    have hpoolnd : (((X.filter fun p => decide (p.id ≠ ptb.id)).map Player.id)).Nodup :=
      List.Nodup.sublist ((List.filter_sublist X).map Player.id) hXnd
    have hpoollen : (X.filter fun p => decide (p.id ≠ ptb.id)).length + 1 = X.length :=
      length_filter_ne X hXnd ptb.id (List.mem_map_of_mem Player.id hptbX)
    have hU0 := filter_not_mem_nil (X.filter fun p => decide (p.id ≠ ptb.id))
    obtain ⟨G1, G2, G3, G5⟩ := pairLoop_master [] (X.filter fun p => decide (p.id ≠ ptb.id))
      hpoolnd (X.filter fun p => decide (p.id ≠ ptb.id)) [] (List.Subset.refl _)
      (fun p hp _ => hp) (by rw [hU0]; omega)
    rw [hU0] at G2 G3
    have hshape := pairLoop_games_shape [] (X.filter fun p => decide (p.id ≠ ptb.id))
      (X.filter fun p => decide (p.id ≠ ptb.id)) []
    rw [List.singleton_append]
    refine ⟨?_, ?_, ?_⟩
    · rw [List.nil_append, insertRecs, List.countP_cons]
      rw [insertRecs_countP_blackId]
      have hcnt : (pairLoop [] (X.filter fun p => decide (p.id ≠ ptb.id))
          (X.filter fun p => decide (p.id ≠ ptb.id)) []).1.countP
            (fun g => g.blackId.isSome) =
          (pairLoop [] (X.filter fun p => decide (p.id ≠ ptb.id))
            (X.filter fun p => decide (p.id ≠ ptb.id)) []).1.length := by
        rw [List.countP_eq_length]
        intro g hg
        obtain ⟨⟨b, hb⟩, -⟩ := hshape g hg
        simp [hb]
      rw [hcnt]
      have hbye : ((⟨nextPairingId [], nextRoundNumber [], (byeRec ptb.id).whiteId,
          (byeRec ptb.id).blackId, (byeRec ptb.id).result⟩ : Pairing).blackId.isSome)
          = false := by
        simp [byeRec]
      rw [hbye]
      simp only [Bool.false_eq_true, if_false, add_zero]
      omega
    · rw [List.nil_append, insertRecs, List.countP_cons]
      rw [insertRecs_countP_blackId]
      have hcnt : (pairLoop [] (X.filter fun p => decide (p.id ≠ ptb.id))
          (X.filter fun p => decide (p.id ≠ ptb.id)) []).1.countP
            (fun g => g.blackId.isNone) = 0 := by
        rw [List.countP_eq_zero]
        intro g hg
        obtain ⟨⟨b, hb⟩, -⟩ := hshape g hg
        simp [hb]
      rw [hcnt]
      have hbye : ((⟨nextPairingId [], nextRoundNumber [], (byeRec ptb.id).whiteId,
          (byeRec ptb.id).blackId, (byeRec ptb.id).result⟩ : Pairing).blackId.isNone)
          = true := by
        simp [byeRec]
      rw [hbye]
      rw [if_pos hpar]
      decide
    · intro p hp
      rw [List.nil_append, insertRecs, List.countP_cons]
      rw [insertRecs_countP_involves]
      by_cases hpid : p.id = ptb.id
      · have hhead : involvesRow p.id ⟨nextPairingId [], nextRoundNumber [],
            (byeRec ptb.id).whiteId, (byeRec ptb.id).blackId, (byeRec ptb.id).result⟩
            = true := by
          simp [involvesRow, byeRec, hpid]
        rw [hhead, if_pos rfl]
        have hzero : (pairLoop [] (X.filter fun p => decide (p.id ≠ ptb.id))
            (X.filter fun p => decide (p.id ≠ ptb.id)) []).1.countP (involvesB p.id)
            = 0 := by
          rw [G3 p.id, if_neg]
          intro hc
          rcases List.mem_map.mp hc with ⟨pz, hpz, hpzx⟩
          rw [List.mem_filter] at hpz
          have : pz.id ≠ ptb.id := by simpa using hpz.2
          exact this (hpzx.trans hpid)
        rw [hzero]
      · have hhead : involvesRow p.id ⟨nextPairingId [], nextRoundNumber [],
            (byeRec ptb.id).whiteId, (byeRec ptb.id).blackId, (byeRec ptb.id).result⟩
            = false := by
          simp only [involvesRow, byeRec, decide_eq_false_iff_not]
          rintro (hc | hc)
          · exact hpid hc.symm
          · exact absurd hc (by simp)
        rw [hhead]
        simp only [Bool.false_eq_true, if_false, add_zero]
        rw [G3 p.id, if_pos]
        refine List.mem_map.mpr ⟨p, ?_, rfl⟩
        refine List.mem_filter.mpr ⟨hperm.mem_iff.mpr hp, by simpa using hpid⟩

/-- Witness for `generateNextRound_first_round_shape` at a 3-player first
round: one game, one bye, everyone in exactly one row. -/
theorem generateNextRound_first_round_shape_witness :
    (⟨[⟨1, "A", 0, false⟩, ⟨2, "B", 0, false⟩, ⟨3, "C", 0, false⟩], []⟩ : Db).pairings = [] ∧
      2 ≤ (⟨[⟨1, "A", 0, false⟩, ⟨2, "B", 0, false⟩, ⟨3, "C", 0, false⟩],
        []⟩ : Db).players.length ∧
      ((⟨[⟨1, "A", 0, false⟩, ⟨2, "B", 0, false⟩, ⟨3, "C", 0, false⟩],
        []⟩ : Db).players.map Player.id).Nodup ∧
      generateNextRound ⟨[⟨1, "A", 0, false⟩, ⟨2, "B", 0, false⟩, ⟨3, "C", 0, false⟩], []⟩ =
        .ok ⟨[⟨1, "A", 1, true⟩, ⟨2, "B", 0, false⟩, ⟨3, "C", 0, false⟩],
          [⟨1, 1, 1, none, some "1-0"⟩, ⟨2, 1, 2, some 3, none⟩]⟩ ∧
      (((⟨[⟨1, "A", 1, true⟩, ⟨2, "B", 0, false⟩, ⟨3, "C", 0, false⟩],
          [⟨1, 1, 1, none, some "1-0"⟩, ⟨2, 1, 2, some 3, none⟩]⟩ : Db).pairings.countP
            fun q => q.blackId.isSome) =
          (⟨[⟨1, "A", 0, false⟩, ⟨2, "B", 0, false⟩, ⟨3, "C", 0, false⟩],
            []⟩ : Db).players.length / 2 ∧
        ((⟨[⟨1, "A", 1, true⟩, ⟨2, "B", 0, false⟩, ⟨3, "C", 0, false⟩],
          [⟨1, 1, 1, none, some "1-0"⟩, ⟨2, 1, 2, some 3, none⟩]⟩ : Db).pairings.countP
            fun q => q.blackId.isNone) =
          (if (⟨[⟨1, "A", 0, false⟩, ⟨2, "B", 0, false⟩, ⟨3, "C", 0, false⟩],
            []⟩ : Db).players.length % 2 = 1 then 1 else 0) ∧
        ∀ p ∈ (⟨[⟨1, "A", 0, false⟩, ⟨2, "B", 0, false⟩, ⟨3, "C", 0, false⟩],
          []⟩ : Db).players,
          (⟨[⟨1, "A", 1, true⟩, ⟨2, "B", 0, false⟩, ⟨3, "C", 0, false⟩],
            [⟨1, 1, 1, none, some "1-0"⟩, ⟨2, 1, 2, some 3, none⟩]⟩ : Db).pairings.countP
              (involvesRow p.id) = 1) := by
  have hok : generateNextRound
      ⟨[⟨1, "A", 0, false⟩, ⟨2, "B", 0, false⟩, ⟨3, "C", 0, false⟩], []⟩ =
      .ok ⟨[⟨1, "A", 1, true⟩, ⟨2, "B", 0, false⟩, ⟨3, "C", 0, false⟩],
        [⟨1, 1, 1, none, some "1-0"⟩, ⟨2, 1, 2, some 3, none⟩]⟩ := by
    simp [generateNextRound, poolAndBye, jsSort, jsInsert, canonLt, byeLt, pairLoop,
      findOpponent, havePlayed, insertRecs, nextRoundNumber, nextPairingId, awardBye,
      byeRec, String.lt_iff_toList_lt]
    decide
  exact ⟨rfl, by decide, by decide, hok,
    generateNextRound_first_round_shape _ _ rfl (by decide) (by decide) hok⟩

/-- The new round's two-player rows as `(white_id, black_id)` pairs, read
off the pairings the generate call appended. -/
def newGamePairs (db db' : Db) : List (Nat × Option Nat) :=
  ((db'.pairings.drop db.pairings.length).filter fun q => q.blackId.isSome).map
    fun q => (q.whiteId, q.blackId)

theorem pairLoop_round_spec (hist : List Pairing) (pool : List Player)
    (hnd : (pool.map Player.id).Nodup) (hlen : pool.length % 2 = 0) :
    (∀ p ∈ pool, (pairLoop hist pool pool []).1.countP (involvesB p.id) = 1) ∧
      ∀ i (hi : i < (pairLoop hist pool pool []).1.length) (b : Nat),
        ((pairLoop hist pool pool []).1.get ⟨i, hi⟩).blackId = some b →
        havePlayed hist ((pairLoop hist pool pool []).1.get ⟨i, hi⟩).whiteId b = true →
        ∀ p2 ∈ pool,
          p2.id ≠ ((pairLoop hist pool pool []).1.get ⟨i, hi⟩).whiteId →
          (∀ j (hj : j < i),
            involvesB p2.id ((pairLoop hist pool pool []).1.get ⟨j, lt_trans hj hi⟩)
              = false) →
          havePlayed hist ((pairLoop hist pool pool []).1.get ⟨i, hi⟩).whiteId p2.id
            = true := by
  obtain ⟨G1, G2, G3, G5⟩ := pairLoop_master hist pool hnd pool [] (List.Subset.refl _)
    (fun p hp _ => hp) (by rw [filter_not_mem_nil]; exact hlen)
  constructor
  · intro p hp
    rw [G3 p.id, filter_not_mem_nil, if_pos (List.mem_map_of_mem Player.id hp)]
  · intro i hi b hb hmet p2 hp2 hne hjs
    exact G5 i hi b hb hmet p2 hp2 hne (List.not_mem_nil p2.id) hjs

theorem get_map_pair (games : List NewPairing) (j : Nat)
    (hj : j < (games.map fun g => (g.whiteId, g.blackId)).length) :
    (games.map fun g => (g.whiteId, g.blackId)).get ⟨j, hj⟩ =
      ((games.get ⟨j, by simpa using hj⟩).whiteId,
        (games.get ⟨j, by simpa using hj⟩).blackId) := by
  rw [List.get_map]

/-- **C5.** For every roster (distinct ids) and pairing history on which
`generateNextRound` succeeds: (coverage) every player of the pool to be
paired appears in exactly one of the new round's two-player rows — the pool
is always of even size after the bye removal, so nobody is left unpaired
even when rematches are unavoidable; (rematch minimality) a new row pairing
two players who had already met is emitted only if every pool player other
than its white player that was not consumed by an earlier row of the round
had already met that white player. -/
theorem generated_round_rematch_and_coverage (db db' : Db)
    (hnd : (db.players.map Player.id).Nodup)
    (hok : generateNextRound db = .ok db') :
    (∀ p ∈ (poolAndBye db.players).pool,
      (newGamePairs db db').countP
        (fun wb => decide (wb.1 = p.id ∨ wb.2 = some p.id)) = 1) ∧
      ∀ i (hi : i < (newGamePairs db db').length) (b : Nat),
        ((newGamePairs db db').get ⟨i, hi⟩).2 = some b →
        havePlayed db.pairings ((newGamePairs db db').get ⟨i, hi⟩).1 b = true →
        ∀ p2 ∈ (poolAndBye db.players).pool,
          p2.id ≠ ((newGamePairs db db').get ⟨i, hi⟩).1 →
          (∀ j (hj : j < i),
            decide (((newGamePairs db db').get ⟨j, lt_trans hj hi⟩).1 = p2.id ∨
              ((newGamePairs db db').get ⟨j, lt_trans hj hi⟩).2 = some p2.id) = false) →
          havePlayed db.pairings ((newGamePairs db db').get ⟨i, hi⟩).1 p2.id = true := by
  by_cases hlen : db.players.length < 2
  · rw [generateNextRound, if_pos hlen] at hok
    exact absurd hok (by simp)
  · rw [generateNextRound, if_neg hlen] at hok
    have hdb' : db' =
        { players := (poolAndBye db.players).players
          pairings := db.pairings ++
            insertRecs (nextRoundNumber db.pairings) (nextPairingId db.pairings)
              ((poolAndBye db.players).byeRecs ++
                (pairLoop db.pairings (poolAndBye db.players).pool
                  (poolAndBye db.players).pool []).1) } := by
      cases hok
      rfl
    have hdrop : db'.pairings.drop db.pairings.length =
        insertRecs (nextRoundNumber db.pairings) (nextPairingId db.pairings)
          ((poolAndBye db.players).byeRecs ++
            (pairLoop db.pairings (poolAndBye db.players).pool
              (poolAndBye db.players).pool []).1) := by
      rw [hdb']
      exact List.drop_left _ _
    have hpoolfacts : (((poolAndBye db.players).pool.map Player.id)).Nodup ∧
        (poolAndBye db.players).pool.length % 2 = 0 ∧
        (poolAndBye db.players).byeRecs.filter (fun g => g.blackId.isSome) = [] := by
      rcases Nat.mod_two_eq_zero_or_one db.players.length with hpar | hpar
      · rw [poolAndBye_even db.players hpar]
        refine ⟨((jsSort_perm canonLt db.players).map Player.id).nodup_iff.mpr hnd, ?_, rfl⟩
        rw [jsSort_length]
        omega
      · obtain ⟨ptb, X, hmem, hperm, hpb⟩ := poolAndBye_odd db.players hpar
        rw [hpb ]
        dsimp only
        have hXnd : (X.map Player.id).Nodup := (hperm.map Player.id).nodup_iff.mpr hnd
        have hXlen : X.length = db.players.length := hperm.length_eq
        have hptbX : ptb ∈ X := hperm.mem_iff.mpr hmem
        refine ⟨List.Nodup.sublist ((List.filter_sublist X).map Player.id) hXnd, ?_, ?_⟩
        · have := length_filter_ne X hXnd ptb.id (List.mem_map_of_mem Player.id hptbX)
          omega
        · simp [byeRec]
    obtain ⟨hndp, hlenp, hbrf⟩ := hpoolfacts
    obtain ⟨A, B⟩ := pairLoop_round_spec db.pairings (poolAndBye db.players).pool hndp hlenp
    have hshape := pairLoop_games_shape db.pairings (poolAndBye db.players).pool
      (poolAndBye db.players).pool []
    have hpairs : newGamePairs db db' =
        (pairLoop db.pairings (poolAndBye db.players).pool
          (poolAndBye db.players).pool []).1.map fun g => (g.whiteId, g.blackId) := by
      rw [newGamePairs, hdrop, insertRecs_filter_some_pairs, List.filter_append, hbrf,
        List.nil_append]
      congr 1
      rw [List.filter_eq_self]
      intro g hg
      obtain ⟨⟨b, hb⟩, -⟩ := hshape g hg
      simp [hb]
    rw [hpairs]
    constructor
    · intro p hp
      rw [List.countP_map]
      have hcongr : ∀ g ∈ (pairLoop db.pairings (poolAndBye db.players).pool
          (poolAndBye db.players).pool []).1,
          (((fun wb : Nat × Option Nat => decide (wb.1 = p.id ∨ wb.2 = some p.id)) ∘
            fun g => (g.whiteId, g.blackId)) g = true ↔ involvesB p.id g = true) :=
        fun g _ => Iff.rfl
      rw [List.countP_congr hcongr]
      exact A p hp
    · intro i hi b hb hmet p2 hp2 hne hjs
      have hi' : i < (pairLoop db.pairings (poolAndBye db.players).pool
          (poolAndBye db.players).pool []).1.length := by
        simpa using hi
      rw [get_map_pair _ i hi] at hb hmet hne ⊢
      apply B i hi' b
      · exact hb
      · exact hmet
      · exact hp2
      · exact hne
      · intro j hj
        have hjsj := hjs j hj
        rw [get_map_pair _ j (lt_trans hj hi)] at hjsj
        exact hjsj

/-- Witness for `generated_round_rematch_and_coverage` on a 4-player second
round with a real history (A beat B, C beat D in round 1; round 2 pairs
A–C and B–D, avoiding rematches). -/
theorem generated_round_rematch_and_coverage_witness :
    ((⟨[⟨1, "A", 1, false⟩, ⟨2, "B", 0, false⟩, ⟨3, "C", 1, false⟩, ⟨4, "D", 0, false⟩],
        [⟨1, 1, 1, some 2, some "1-0"⟩, ⟨2, 1, 3, some 4, some "1-0"⟩]⟩ : Db).players.map
          Player.id).Nodup ∧
      generateNextRound ⟨[⟨1, "A", 1, false⟩, ⟨2, "B", 0, false⟩, ⟨3, "C", 1, false⟩,
          ⟨4, "D", 0, false⟩],
        [⟨1, 1, 1, some 2, some "1-0"⟩, ⟨2, 1, 3, some 4, some "1-0"⟩]⟩ =
        .ok ⟨[⟨1, "A", 1, false⟩, ⟨2, "B", 0, false⟩, ⟨3, "C", 1, false⟩, ⟨4, "D", 0, false⟩],
          [⟨1, 1, 1, some 2, some "1-0"⟩, ⟨2, 1, 3, some 4, some "1-0"⟩,
            ⟨3, 2, 1, some 3, none⟩, ⟨4, 2, 2, some 4, none⟩]⟩ ∧
      ((∀ p ∈ (poolAndBye (⟨[⟨1, "A", 1, false⟩, ⟨2, "B", 0, false⟩, ⟨3, "C", 1, false⟩,
          ⟨4, "D", 0, false⟩],
        [⟨1, 1, 1, some 2, some "1-0"⟩, ⟨2, 1, 3, some 4, some "1-0"⟩]⟩ : Db).players).pool,
        (newGamePairs ⟨[⟨1, "A", 1, false⟩, ⟨2, "B", 0, false⟩, ⟨3, "C", 1, false⟩,
            ⟨4, "D", 0, false⟩],
          [⟨1, 1, 1, some 2, some "1-0"⟩, ⟨2, 1, 3, some 4, some "1-0"⟩]⟩
          ⟨[⟨1, "A", 1, false⟩, ⟨2, "B", 0, false⟩, ⟨3, "C", 1, false⟩, ⟨4, "D", 0, false⟩],
            [⟨1, 1, 1, some 2, some "1-0"⟩, ⟨2, 1, 3, some 4, some "1-0"⟩,
              ⟨3, 2, 1, some 3, none⟩, ⟨4, 2, 2, some 4, none⟩]⟩).countP
          (fun wb => decide (wb.1 = p.id ∨ wb.2 = some p.id)) = 1) ∧
        ∀ i (hi : i < (newGamePairs ⟨[⟨1, "A", 1, false⟩, ⟨2, "B", 0, false⟩,
            ⟨3, "C", 1, false⟩, ⟨4, "D", 0, false⟩],
          [⟨1, 1, 1, some 2, some "1-0"⟩, ⟨2, 1, 3, some 4, some "1-0"⟩]⟩
          ⟨[⟨1, "A", 1, false⟩, ⟨2, "B", 0, false⟩, ⟨3, "C", 1, false⟩, ⟨4, "D", 0, false⟩],
            [⟨1, 1, 1, some 2, some "1-0"⟩, ⟨2, 1, 3, some 4, some "1-0"⟩,
              ⟨3, 2, 1, some 3, none⟩, ⟨4, 2, 2, some 4, none⟩]⟩).length) (b : Nat),
          ((newGamePairs ⟨[⟨1, "A", 1, false⟩, ⟨2, "B", 0, false⟩, ⟨3, "C", 1, false⟩,
              ⟨4, "D", 0, false⟩],
            [⟨1, 1, 1, some 2, some "1-0"⟩, ⟨2, 1, 3, some 4, some "1-0"⟩]⟩
            ⟨[⟨1, "A", 1, false⟩, ⟨2, "B", 0, false⟩, ⟨3, "C", 1, false⟩, ⟨4, "D", 0, false⟩],
              [⟨1, 1, 1, some 2, some "1-0"⟩, ⟨2, 1, 3, some 4, some "1-0"⟩,
                ⟨3, 2, 1, some 3, none⟩, ⟨4, 2, 2, some 4, none⟩]⟩).get ⟨i, hi⟩).2 = some b →
          havePlayed [⟨1, 1, 1, some 2, some "1-0"⟩, ⟨2, 1, 3, some 4, some "1-0"⟩]
            ((newGamePairs ⟨[⟨1, "A", 1, false⟩, ⟨2, "B", 0, false⟩, ⟨3, "C", 1, false⟩,
                ⟨4, "D", 0, false⟩],
              [⟨1, 1, 1, some 2, some "1-0"⟩, ⟨2, 1, 3, some 4, some "1-0"⟩]⟩
              ⟨[⟨1, "A", 1, false⟩, ⟨2, "B", 0, false⟩, ⟨3, "C", 1, false⟩, ⟨4, "D", 0, false⟩],
                [⟨1, 1, 1, some 2, some "1-0"⟩, ⟨2, 1, 3, some 4, some "1-0"⟩,
                  ⟨3, 2, 1, some 3, none⟩, ⟨4, 2, 2, some 4, none⟩]⟩).get ⟨i, hi⟩).1 b
              = true →
          ∀ p2 ∈ (poolAndBye (⟨[⟨1, "A", 1, false⟩, ⟨2, "B", 0, false⟩, ⟨3, "C", 1, false⟩,
              ⟨4, "D", 0, false⟩],
            [⟨1, 1, 1, some 2, some "1-0"⟩,
              ⟨2, 1, 3, some 4, some "1-0"⟩]⟩ : Db).players).pool,
            p2.id ≠ ((newGamePairs ⟨[⟨1, "A", 1, false⟩, ⟨2, "B", 0, false⟩,
                ⟨3, "C", 1, false⟩, ⟨4, "D", 0, false⟩],
              [⟨1, 1, 1, some 2, some "1-0"⟩, ⟨2, 1, 3, some 4, some "1-0"⟩]⟩
              ⟨[⟨1, "A", 1, false⟩, ⟨2, "B", 0, false⟩, ⟨3, "C", 1, false⟩, ⟨4, "D", 0, false⟩],
                [⟨1, 1, 1, some 2, some "1-0"⟩, ⟨2, 1, 3, some 4, some "1-0"⟩,
                  ⟨3, 2, 1, some 3, none⟩, ⟨4, 2, 2, some 4, none⟩]⟩).get ⟨i, hi⟩).1 →
            (∀ j (hj : j < i),
              decide (((newGamePairs ⟨[⟨1, "A", 1, false⟩, ⟨2, "B", 0, false⟩,
                  ⟨3, "C", 1, false⟩, ⟨4, "D", 0, false⟩],
                [⟨1, 1, 1, some 2, some "1-0"⟩, ⟨2, 1, 3, some 4, some "1-0"⟩]⟩
                ⟨[⟨1, "A", 1, false⟩, ⟨2, "B", 0, false⟩, ⟨3, "C", 1, false⟩,
                    ⟨4, "D", 0, false⟩],
                  [⟨1, 1, 1, some 2, some "1-0"⟩, ⟨2, 1, 3, some 4, some "1-0"⟩,
                    ⟨3, 2, 1, some 3, none⟩, ⟨4, 2, 2, some 4, none⟩]⟩).get
                      ⟨j, lt_trans hj hi⟩).1 = p2.id ∨
                ((newGamePairs ⟨[⟨1, "A", 1, false⟩, ⟨2, "B", 0, false⟩, ⟨3, "C", 1, false⟩,
                    ⟨4, "D", 0, false⟩],
                  [⟨1, 1, 1, some 2, some "1-0"⟩, ⟨2, 1, 3, some 4, some "1-0"⟩]⟩
                  ⟨[⟨1, "A", 1, false⟩, ⟨2, "B", 0, false⟩, ⟨3, "C", 1, false⟩,
                      ⟨4, "D", 0, false⟩],
                    [⟨1, 1, 1, some 2, some "1-0"⟩, ⟨2, 1, 3, some 4, some "1-0"⟩,
                      ⟨3, 2, 1, some 3, none⟩, ⟨4, 2, 2, some 4, none⟩]⟩).get
                        ⟨j, lt_trans hj hi⟩).2 = some p2.id) = false) →
            havePlayed [⟨1, 1, 1, some 2, some "1-0"⟩, ⟨2, 1, 3, some 4, some "1-0"⟩]
              ((newGamePairs ⟨[⟨1, "A", 1, false⟩, ⟨2, "B", 0, false⟩, ⟨3, "C", 1, false⟩,
                  ⟨4, "D", 0, false⟩],
                [⟨1, 1, 1, some 2, some "1-0"⟩, ⟨2, 1, 3, some 4, some "1-0"⟩]⟩
                ⟨[⟨1, "A", 1, false⟩, ⟨2, "B", 0, false⟩, ⟨3, "C", 1, false⟩,
                    ⟨4, "D", 0, false⟩],
                  [⟨1, 1, 1, some 2, some "1-0"⟩, ⟨2, 1, 3, some 4, some "1-0"⟩,
                    ⟨3, 2, 1, some 3, none⟩, ⟨4, 2, 2, some 4, none⟩]⟩).get ⟨i, hi⟩).1 p2.id
              = true) := by
  have hok : generateNextRound ⟨[⟨1, "A", 1, false⟩, ⟨2, "B", 0, false⟩, ⟨3, "C", 1, false⟩,
      ⟨4, "D", 0, false⟩],
      [⟨1, 1, 1, some 2, some "1-0"⟩, ⟨2, 1, 3, some 4, some "1-0"⟩]⟩ =
      .ok ⟨[⟨1, "A", 1, false⟩, ⟨2, "B", 0, false⟩, ⟨3, "C", 1, false⟩, ⟨4, "D", 0, false⟩],
        [⟨1, 1, 1, some 2, some "1-0"⟩, ⟨2, 1, 3, some 4, some "1-0"⟩,
          ⟨3, 2, 1, some 3, none⟩, ⟨4, 2, 2, some 4, none⟩]⟩ := by
    norm_num [generateNextRound, poolAndBye, jsSort, jsInsert, canonLt, byeLt, pairLoop,
      findOpponent, havePlayed, insertRecs, nextRoundNumber, nextPairingId, awardBye,
      byeRec, String.lt_iff_toList_lt] <;> decide
  exact ⟨by decide, hok, generated_round_rematch_and_coverage _ _ (by decide) hok⟩
